import Mathlib

/-!
Shallow embedding of the Telescope.Browser background core
(state manager, message broker, recovery manager, harpoon manager)
together with proofs about the behaviours its specification describes.

Sources embedded:
- `src/service-workers/state/state-manager.ts`
- `src/service-workers/managers/recovery-manager.ts`
- `src/service-workers/managers/harpoon-manager.ts`
- `src/service-workers/messaging/message-broker.ts`

JavaScript records are embedded as association lists keyed by numeric
window ids (insertion-ordered, unique keys); `await`-interleaved effect
order is embedded as explicit step traces executed by `runSteps`.
-/

namespace TB

/-- The `Tab` record from `types/shared.ts`. -/
structure Tab where
  id : Nat
  url : String
  highlightedUrl : String
  title : String
  highlightedTitle : String
  faviconUrl : String
  screenshotUrl : String
  windowId : Nat
deriving DecidableEq, Repr

/-! ## Association-list embedding of JS `Record<number, T>` -/

/-- `m[k]` read of a JS record. -/
def recLookup {β : Type} (m : List (Nat × β)) (k : Nat) : Option β :=
  (m.find? (fun p => p.1 == k)).map (·.2)

/-- `m[k] = v` on a JS record: update in place if the key exists, else append. -/
def recSet {β : Type} (m : List (Nat × β)) (k : Nat) (v : β) : List (Nat × β) :=
  if m.any (fun p => p.1 == k) then
    m.map (fun p => if p.1 == k then (p.1, v) else p)
  else
    m ++ [(k, v)]

/-- `delete m[k]` on a JS record. -/
def recDel {β : Type} (m : List (Nat × β)) (k : Nat) : List (Nat × β) :=
  m.filter (fun p => p.1 != k)

/-! ## State-manager operation types (`state-manager.ts`) -/

inductive TabHistoryOpType | add | remove | update | reorder
deriving DecidableEq, Repr

/-- `TabHistoryOperation` from `state-manager.ts` (optional fields as in TS). -/
structure TabHistoryOperation where
  type : TabHistoryOpType
  tab : Option Tab := none
  tabId : Option Nat := none
  tabs : Option (List Tab) := none
deriving DecidableEq, Repr

inductive HarpoonOpType | add | remove | update | clear | reorder
deriving DecidableEq, Repr

/-- `HarpoonOperation` from `state-manager.ts`. -/
structure HarpoonOperation where
  type : HarpoonOpType
  windowId : Nat
  tab : Option Tab := none
  tabId : Option Nat := none
  tabs : Option (List Tab) := none
deriving DecidableEq, Repr

/-- JS truthiness of an optional numeric field: `undefined` and `0` are falsy. -/
def truthyNat (o : Option Nat) : Option Nat :=
  match o with
  | none => none
  | some 0 => none
  | some n => some n

/-- `applyTabHistoryOperation` (state-manager.ts:345).  `add` removes any
entry with the same id and inserts at the head; `remove` filters by id;
`update` replaces the matching id in place; `reorder` replaces the slice. -/
def applyTabHistoryOperation (state : List Tab) (operation : TabHistoryOperation) :
    Except String (List Tab) :=
  match operation.type with
  | .add =>
    match operation.tab with
    | none => .error "Tab required for add operation"
    | some tab => .ok (tab :: state.filter (fun t => t.id != tab.id))
  | .remove =>
    match truthyNat operation.tabId with
    | none => .error "Tab ID required for remove operation"
    | some tabId => .ok (state.filter (fun t => t.id != tabId))
  | .update =>
    match operation.tab with
    | none => .error "Tab required for update operation"
    | some tab => .ok (state.map (fun t => if t.id == tab.id then tab else t))
  | .reorder =>
    match operation.tabs with
    | none => .error "Tabs required for reorder operation"
    | some tabs => .ok tabs

/-- `applyHarpoonOperationToWindow` (state-manager.ts:394): like the history
operations but `add` appends, `clear` empties, and `add`/`update`/`reorder`
assert each affected tab's `windowId` equals the operation's `windowId`. -/
def applyHarpoonOperationToWindow (windowState : List Tab) (operation : HarpoonOperation) :
    Except String (List Tab) :=
  match operation.type with
  | .add =>
    match operation.tab with
    | none => .error "Tab required for add operation"
    | some tab =>
      if tab.windowId != operation.windowId then
        .error "Tab window ID does not match operation window ID"
      else
        .ok (windowState.filter (fun t => t.id != tab.id) ++ [tab])
  | .remove =>
    match truthyNat operation.tabId with
    | none => .error "Tab ID required for remove operation"
    | some tabId => .ok (windowState.filter (fun t => t.id != tabId))
  | .update =>
    match operation.tab with
    | none => .error "Tab required for update operation"
    | some tab =>
      if tab.windowId != operation.windowId then
        .error "Tab window ID does not match operation window ID"
      else
        .ok (windowState.map (fun t => if t.id == tab.id then tab else t))
  | .clear => .ok []
  | .reorder =>
    match operation.tabs with
    | none => .error "Tabs required for reorder operation"
    | some tabs =>
      if tabs.any (fun tab => tab.windowId != operation.windowId) then
        .error "Tab window ID does not match operation window ID"
      else
        .ok tabs

/-- A tab passing the truthiness checks of `validateTabHistory` /
`validateHarpoonTabs` (`!tab.id || !tab.url || !tab.title || !tab.windowId`). -/
def isValidTab (tab : Tab) : Bool :=
  tab.id != 0 && tab.url != "" && tab.title != "" && tab.windowId != 0

/-- `validateTabHistory` (state-manager.ts:476). -/
def validateTabHistory (tabs : List Tab) : Except String Unit :=
  if tabs.all isValidTab then .ok () else .error "Invalid tab in history"

/-- `validateHarpoonTabs` (state-manager.ts:488). -/
def validateHarpoonTabs (tabs : List Tab) : Except String Unit :=
  if tabs.all isValidTab then .ok () else .error "Invalid tab in harpoon"

/-- The in-memory `harpoonWindowsState` record. -/
abbrev HarpoonWindows : Type := List (Nat × List Tab)

/-- `getHarpoonTabsForWindow` (state-manager.ts:184): `state[w] || []`. -/
def getHarpoonTabsForWindow (st : HarpoonWindows) (windowId : Nat) : List Tab :=
  (recLookup st windowId).getD []

/-- `getHarpoonTabs` (state-manager.ts:177): `Object.values(state).flat()`. -/
def getHarpoonTabs (st : HarpoonWindows) : List Tab :=
  (st.map (·.2)).flatten

/-- The state-transition core of `updateHarpoonTabs` (state-manager.ts:199):
apply the operation to the window's partition, validate, then either delete
the key (empty result) or store the new partition.  All throw points occur
before the single in-memory assignment, so an error leaves the state as it
was. -/
def updateHarpoonTabs (st : HarpoonWindows) (operation : HarpoonOperation) :
    Except String HarpoonWindows :=
  match applyHarpoonOperationToWindow (getHarpoonTabsForWindow st operation.windowId)
      operation with
  | .error e => .error e
  | .ok newWindowState =>
    match validateHarpoonTabs newWindowState with
    | .error e => .error e
    | .ok _ =>
      if newWindowState.length == 0 then
        .ok (recDel st operation.windowId)
      else
        .ok (recSet st operation.windowId newWindowState)

/-- Run a sequence of `updateHarpoonTabs` operations; a thrown operation
leaves the in-memory state unchanged (the caller sees the rejection and the
state keeps its previous value). -/
def runHarpoonOps (st : HarpoonWindows) (ops : List HarpoonOperation) : HarpoonWindows :=
  ops.foldl (fun s op => match updateHarpoonTabs s op with
    | .ok s' => s'
    | .error _ => s) st

/-- Structural invariant: every member of a window's partition carries that
window's id. -/
def harpoonPartitionInv (st : HarpoonWindows) : Prop :=
  ∀ p ∈ st, ∀ t ∈ p.2, t.windowId = p.1

/-! ## Window state and system health (`storage-layer.ts`, `state-manager.ts`) -/

/-- `WindowState` from `storage-layer.ts`. -/
structure WindowState where
  id : Nat
  focused : Bool
  lastActivity : Nat
  activeTabId : Option Nat
deriving DecidableEq, Repr

/-- A `Partial<WindowState>` (absent fields are `none`). -/
structure WindowStateDelta where
  id : Option Nat := none
  focused : Option Bool := none
  lastActivity : Option Nat := none
  activeTabId : Option (Option Nat) := none
deriving DecidableEq, Repr

/-- JS object spread `{...base, ...delta}` for window states. -/
def mergeWindowState (base : WindowState) (delta : WindowStateDelta) : WindowState :=
  { id := delta.id.getD base.id
    focused := delta.focused.getD base.focused
    lastActivity := delta.lastActivity.getD base.lastActivity
    activeTabId := delta.activeTabId.getD base.activeTabId }

inductive WindowStateOpType | create | update | remove | focus
deriving DecidableEq, Repr

/-- `WindowStateOperation` from `state-manager.ts`. -/
structure WindowStateOperation where
  type : WindowStateOpType
  windowId : Nat
  state : Option WindowStateDelta := none
deriving DecidableEq, Repr

/-- The in-memory `windowStatesState` record. -/
abbrev WindowStates : Type := List (Nat × WindowState)

/-- `applyWindowStateOperation` (state-manager.ts:434).  `now` stands for
`Date.now()` used as the default `lastActivity` of a created window. -/
def applyWindowStateOperation (now : Nat) (state : WindowStates)
    (operation : WindowStateOperation) : Except String WindowStates :=
  match operation.type with
  | .create =>
    match operation.state with
    | none => .error "State required for create operation"
    | some delta =>
      .ok (recSet state operation.windowId
        (mergeWindowState
          { id := operation.windowId, focused := false, lastActivity := now,
            activeTabId := none } delta))
  | .update =>
    match operation.state with
    | none => .error "State required for update operation"
    | some delta =>
      match recLookup state operation.windowId with
      | none => .ok state
      | some existing =>
        .ok (recSet state operation.windowId (mergeWindowState existing delta))
  | .remove => .ok (recDel state operation.windowId)
  | .focus =>
    let unfocused := state.map (fun p => (p.1, { p.2 with focused := false }))
    match recLookup unfocused operation.windowId with
    | none => .ok unfocused
    | some w =>
      .ok (recSet unfocused operation.windowId { w with focused := true })

/-- `SystemHealth` from `storage-layer.ts`. -/
structure SystemHealth where
  version : Nat
  lastCleanup : Nat
  errorCount : Nat
  lastHealthCheck : Nat
deriving DecidableEq, Repr

/-- A `Partial<SystemHealth>`. -/
structure SystemHealthDelta where
  version : Option Nat := none
  lastCleanup : Option Nat := none
  errorCount : Option Nat := none
  lastHealthCheck : Option Nat := none
deriving DecidableEq, Repr

/-- JS object spread `{...current, ...updates}` for system health. -/
def mergeSystemHealth (base : SystemHealth) (delta : SystemHealthDelta) : SystemHealth :=
  { version := delta.version.getD base.version
    lastCleanup := delta.lastCleanup.getD base.lastCleanup
    errorCount := delta.errorCount.getD base.errorCount
    lastHealthCheck := delta.lastHealthCheck.getD base.lastHealthCheck }

/-! ## Effect-order embedding of the four `updateX` methods

Each `updateX` method is compiled to the ordered list of primitive effects
its success path performs: `setMem v` (the synchronous in-memory slice
assignment), `persist v` (the awaited `storage.write`), and
`notify new prev` (the synchronous listener fan-out).  The order of the
steps is taken directly from the source; validation failures yield
`.error` and produce no steps. -/

inductive UpdateStep (σ : Type) where
  | setMem (v : σ)
  | persist (v : σ)
  | notify (newState previousState : σ)
deriving DecidableEq, Repr

/-- Execute a step trace against an in-memory slice value.  A failing
`storage.write` (`writeOk = false`) throws at the `persist` step: later
steps do not run and the in-memory value is whatever was set before it.
Returns the final in-memory value, whether the update resolved, and the
`(new, prev)` pairs delivered to listeners. -/
def runSteps {σ : Type} (writeOk : Bool) (mem : σ) :
    List (UpdateStep σ) → σ × Bool × List (σ × σ)
  | [] => (mem, true, [])
  | .setMem v :: rest => runSteps writeOk v rest
  | .persist _ :: rest =>
    if writeOk then runSteps writeOk mem rest else (mem, false, [])
  | .notify n p :: rest =>
    let (m, ok, ns) := runSteps writeOk mem rest
    (m, ok, (n, p) :: ns)

/-- In-memory value visible to a synchronous read issued while the
`persist` step is pending (i.e. at the first suspension point). -/
def memAtPersist {σ : Type} (mem : σ) : List (UpdateStep σ) → σ
  | [] => mem
  | .setMem v :: rest => memAtPersist v rest
  | .persist _ :: _ => mem
  | .notify _ _ :: rest => memAtPersist mem rest

/-- Step trace of `updateTabHistory` (state-manager.ts:143): apply,
validate, set the in-memory slice, then `await storage.write`, then notify
listeners with `(newState, previousState)`. -/
def updateTabHistorySteps (state : List Tab) (operation : TabHistoryOperation) :
    Except String (List (UpdateStep (List Tab))) :=
  match applyTabHistoryOperation state operation with
  | .error e => .error e
  | .ok newState =>
    match validateTabHistory newState with
    | .error e => .error e
    | .ok _ =>
      .ok [.setMem newState, .persist newState, .notify newState state]

/-- Step trace of `updateHarpoonTabs` (state-manager.ts:199): the new
record is assigned in memory before the `storage.write`, and listeners are
notified with the flattened global harpoon state. -/
def updateHarpoonTabsSteps (st : HarpoonWindows) (operation : HarpoonOperation) :
    Except String (List (UpdateStep HarpoonWindows)) :=
  match updateHarpoonTabs st operation with
  | .error e => .error e
  | .ok newHarpoonWindows =>
    .ok [.setMem newHarpoonWindows, .persist newHarpoonWindows,
      .notify newHarpoonWindows st]

/-- Step trace of `updateWindowState` (state-manager.ts:266): the source
performs `await storage.write(...)` FIRST and only then assigns the
in-memory slice. -/
def updateWindowStateSteps (now : Nat) (state : WindowStates)
    (operation : WindowStateOperation) :
    Except String (List (UpdateStep WindowStates)) :=
  match applyWindowStateOperation now state operation with
  | .error e => .error e
  | .ok newState =>
    .ok [.persist newState, .setMem newState, .notify newState state]

/-- Step trace of `updateSystemHealth` (state-manager.ts:311): like
`updateWindowState`, the `storage.write` is awaited before the in-memory
assignment. -/
def updateSystemHealthSteps (state : SystemHealth) (updates : SystemHealthDelta) :
    Except String (List (UpdateStep SystemHealth)) :=
  .ok [.persist (mergeSystemHealth state updates),
    .setMem (mergeSystemHealth state updates),
    .notify (mergeSystemHealth state updates) state]

/-! ## Listener fan-out (`notifyTabHistoryListeners`, state-manager.ts:500) -/

/-- One listener: called with `(newState, previousState)`, may throw. -/
abbrev Listener (σ : Type) := σ → σ → Except String Unit

/-- `notifyTabHistoryListeners`: iterate over the subscribed listeners in
order; each invocation is wrapped in its own `try/catch`, the error being
logged, so the loop always continues to the next listener.  The returned
list records each listener's outcome in order. -/
def notifyListeners {σ : Type} (listeners : List (Listener σ))
    (newState previousState : σ) : List (Except String Unit) :=
  match listeners with
  | [] => []
  | listener :: rest =>
    let outcome := listener newState previousState
    outcome :: notifyListeners rest newState previousState

/-! ## Recovery manager (`recovery-manager.ts`) -/

inductive HealthStatus | healthy | degraded | critical | recovering
deriving DecidableEq, Repr

/-- `ComponentHealth` from `recovery-manager.ts`. -/
structure ComponentHealth where
  name : String
  status : HealthStatus
  score : Int
  errors : List String
  warnings : List String
  lastCheck : Nat
deriving DecidableEq, Repr

/-- `determineComponentStatus` (recovery-manager.ts:646). -/
def determineComponentStatus (score : Int) : HealthStatus :=
  if score ≥ 90 then .healthy
  else if score ≥ 70 then .degraded
  else if score ≥ 50 then .critical
  else .critical

/-- `determineOverallStatus` (recovery-manager.ts:653): `critical` as soon
as any component is critical, otherwise thresholds on the overall score. -/
def determineOverallStatus (components : List ComponentHealth) (overallScore : ℚ) :
    HealthStatus :=
  let criticalComponents := components.filter (fun c => c.status == .critical)
  if criticalComponents.length > 0 then .critical
  else if overallScore ≥ 90 then .healthy
  else if overallScore ≥ 70 then .degraded
  else .critical

/-- `generateRecommendations` (recovery-manager.ts:662). -/
def generateRecommendations (components : List ComponentHealth) : List String :=
  components.foldl (fun recommendations component =>
    if component.status == .critical then
      recommendations ++
        ["Critical issue in " ++ component.name ++ ": " ++
          String.intercalate ", " component.errors]
    else if component.status == .degraded then
      recommendations ++
        ["Performance issue in " ++ component.name ++ ": " ++
          String.intercalate ", " component.warnings]
    else recommendations) []

/-- What one `checkXHealth` sub-check reports before its record is built:
a name, a 0-100-ish score (deductions can in principle push it below 0,
hence `Int`), and the collected error/warning strings. -/
structure ComponentReport where
  name : String
  score : Int
  errors : List String := []
  warnings : List String := []
deriving DecidableEq, Repr

/-- Each sub-check returns its record with `status` derived from the score
via `determineComponentStatus` (as every `checkXHealth` in the source does). -/
def mkComponentHealth (now : Nat) (r : ComponentReport) : ComponentHealth :=
  { name := r.name, status := determineComponentStatus r.score, score := r.score,
    errors := r.errors, warnings := r.warnings, lastCheck := now }

/-- `HealthCheckResult` from `recovery-manager.ts`. -/
structure HealthCheckResult where
  status : HealthStatus
  components : List ComponentHealth
  overallScore : ℚ
  recommendations : List String
  timestamp : Nat
deriving DecidableEq, Repr

/-- The aggregation phase of `checkHealth` (recovery-manager.ts:84),
parameterised by the reports of the seven component sub-checks:
`overallScore` is `components.reduce(sum)/components.length` and the
status comes from `determineOverallStatus`. -/
def checkHealth (now : Nat) (reports : List ComponentReport) : HealthCheckResult :=
  let components := reports.map (mkComponentHealth now)
  let overallScore : ℚ :=
    ((components.map (fun comp => (comp.score : ℚ))).sum) / (components.length : ℚ)
  let status := determineOverallStatus components overallScore
  { status := status, components := components, overallScore := overallScore,
    recommendations := generateRecommendations components, timestamp := now }

/-- `criticalErrorThreshold` (recovery-manager.ts:54). -/
def criticalErrorThreshold : Nat := 10

/-- Observable counters of the error trip wire: the persisted
`systemHealth.errorCount` and how many times `recoverFromCorruption()`
has been invoked. -/
structure RecoverySim where
  errorCount : Nat
  recoveryCalls : Nat
deriving DecidableEq, Repr

/-- `handleError` (recovery-manager.ts:377): reads the current system
health, persists `errorCount + 1`, then compares the PREVIOUSLY READ
`systemHealth.errorCount` (not the incremented value) against the
threshold and, when it is reached, invokes `recoverFromCorruption()`. -/
def handleError (st : RecoverySim) : RecoverySim :=
  let systemHealthErrorCount := st.errorCount
  let st1 : RecoverySim := { st with errorCount := systemHealthErrorCount + 1 }
  if systemHealthErrorCount ≥ criticalErrorThreshold then
    { st1 with recoveryCalls := st1.recoveryCalls + 1 }
  else st1

/-- `n` consecutive uncaught errors starting from a fresh zero counter. -/
def afterErrors (n : Nat) : RecoverySim :=
  handleError^[n] { errorCount := 0, recoveryCalls := 0 }

/-! ## Harpoon manager (`harpoon-manager.ts`) -/

/-- `maxHarpoonTabs` default (harpoon-manager.ts:27). -/
def maxHarpoonTabsDefault : Nat := 20

/-- The comparator `(a, b) => b.id - a.id` of `enforceMaxHarpoonTabs`:
`a` sorts no later than `b` exactly when `b.id ≤ a.id` (descending by
id, newest first). -/
def descById (a b : Tab) : Prop := b.id ≤ a.id

instance : DecidableRel descById := fun a b => Nat.decLe b.id a.id

instance : IsTotal Tab descById := ⟨fun a b => Nat.le_total b.id a.id⟩

instance : IsTrans Tab descById := ⟨fun _ _ _ h1 h2 => Nat.le_trans h2 h1⟩

/-- `enforceMaxHarpoonTabs` (harpoon-manager.ts:529): when a window's
partition exceeds the limit, sort it descending by id (`(a, b) => b.id -
a.id`; JS sort is stable, modelled by the stable `insertionSort`), keep
the first `maxHarpoonTabs`, and write them back with a `reorder`
operation; any error is caught and logged, leaving the state. -/
def enforceMaxHarpoonTabs (maxHarpoonTabs : Nat) (st : HarpoonWindows)
    (windowId : Nat) : HarpoonWindows :=
  let harpoonTabs := getHarpoonTabsForWindow st windowId
  if harpoonTabs.length > maxHarpoonTabs then
    let sortedTabs := harpoonTabs.insertionSort descById
    let tabsToKeep := sortedTabs.take maxHarpoonTabs
    match updateHarpoonTabs st
        { type := .reorder, windowId := windowId, tabs := some tabsToKeep } with
    | .ok st' => st'
    | .error _ => st
  else st

/-- `addTabToHarpoon` (harpoon-manager.ts:49), after the telescope tab has
been built from the host tab: `update` when the id is already present in
the window's partition, else `add`; then enforce the size limit. -/
def addTabToHarpoon (maxHarpoonTabs : Nat) (st : HarpoonWindows)
    (telescopeTab : Tab) : Except String HarpoonWindows :=
  match (if (getHarpoonTabsForWindow st telescopeTab.windowId).any
        (fun t => t.id == telescopeTab.id) then
      updateHarpoonTabs st
        { type := .update, windowId := telescopeTab.windowId, tab := some telescopeTab }
    else
      updateHarpoonTabs st
        { type := .add, windowId := telescopeTab.windowId, tab := some telescopeTab }) with
  | .error e => .error e
  | .ok st' => .ok (enforceMaxHarpoonTabs maxHarpoonTabs st' telescopeTab.windowId)

/-- Sequentially add a list of tabs through `addTabToHarpoon`; a rejected
add leaves the state unchanged. -/
def addTabsSequentially (maxHarpoonTabs : Nat) (st : HarpoonWindows)
    (tabs : List Tab) : HarpoonWindows :=
  tabs.foldl (fun s tab => match addTabToHarpoon maxHarpoonTabs s tab with
    | .ok s' => s'
    | .error _ => s) st

/-! ## Message broker (`message-broker.ts`) -/

inductive MessagePriority | high | medium | low
deriving DecidableEq, Repr

/-- The `Message` envelope; its id `msg_${counter}_${timestamp}` is kept
as the pair of its two numeric components. -/
structure Message where
  counter : Nat
  timestamp : Nat
  type : String
  payload : String
  priority : MessagePriority
  retryCount : Nat
  maxRetries : Nat
  timeout : Nat
deriving DecidableEq, Repr

/-- The optional `{priority, maxRetries, timeout}` argument. -/
structure MessageOptions where
  priority : Option MessagePriority := none
  maxRetries : Option Nat := none
  timeout : Option Nat := none
deriving DecidableEq, Repr

/-- JS `v || dflt` on an optional number (`undefined` and `0` are falsy). -/
def jsOrNat (v : Option Nat) (dflt : Nat) : Nat :=
  match v with
  | none => dflt
  | some 0 => dflt
  | some n => n

/-- `createMessage` (message-broker.ts:625): defaults are priority
`medium`, `maxRetries = 3`, `timeout = 5000`. -/
def createMessage (messageCounter now : Nat) (type payload : String)
    (options : MessageOptions) : Message :=
  { counter := messageCounter + 1, timestamp := now, type := type,
    payload := payload, priority := options.priority.getD .medium,
    retryCount := 0, maxRetries := jsOrNat options.maxRetries 3,
    timeout := jsOrNat options.timeout 5000 }

/-- `MessageDeliveryResult` from `message-broker.ts`. -/
structure MessageDeliveryResult where
  success : Bool
  error : Option String := none
  response : Option String := none
deriving DecidableEq, Repr

/-- Behaviour of `sendSingleMessage` on the n-th attempt: either a
resolved result or (hypothetically) a thrown error, as the `try/catch`
in `sendMessageWithRetry` allows. -/
abbrev AttemptOutcome := Nat → Except String MessageDeliveryResult

/-- One iteration of the retry loop body: a successful result returns,
anything else becomes the `lastError` message. -/
def attemptStep (outcome : Except String MessageDeliveryResult) :
    Sum MessageDeliveryResult String :=
  match outcome with
  | .ok result =>
    if result.success then .inl result
    else .inr (match result.error with
      | none => "Unknown error"
      | some s => if s = "" then "Unknown error" else s)
  | .error e => .inr e

/-- The `for (attempt = 0; attempt <= maxRetries; attempt++)` loop of
`sendMessageWithRetry` (message-broker.ts:642), also recording the
backoff delays (`2^attempt * 100` ms) waited between failed attempts.
`remaining` counts the retries still allowed after the current attempt. -/
def sendMessageWithRetryAux (outcome : AttemptOutcome) (attempt : Nat) :
    Nat → MessageDeliveryResult × List Nat
  | 0 =>
    (match attemptStep (outcome attempt) with
      | .inl result => (result, [])
      | .inr err =>
        ({ success := false,
           error := some (if err = "" then "Max retries exceeded" else err) }, []))
  | n + 1 =>
    (match attemptStep (outcome attempt) with
      | .inl result => (result, [])
      | .inr _ =>
        let rest := sendMessageWithRetryAux outcome (attempt + 1) n
        (rest.1, 2 ^ attempt * 100 :: rest.2))

/-- `sendMessageWithRetry` (message-broker.ts:642): returns the delivery
result (never throws) and the list of backoff delays it waited. -/
def sendMessageWithRetry (outcome : AttemptOutcome) (message : Message) :
    MessageDeliveryResult × List Nat :=
  sendMessageWithRetryAux outcome 0 message.maxRetries

/-- `sendMessage` (message-broker.ts:302): builds the envelope with
`createMessage` and delegates to the retry loop. -/
def sendMessage (messageCounter now : Nat) (type payload : String)
    (options : MessageOptions) (outcome : AttemptOutcome) :
    Message × MessageDeliveryResult × List Nat :=
  let message := createMessage messageCounter now type payload options
  (message, sendMessageWithRetry outcome message)

/-- The overriding defaults `broadcastToAllTabs` applies before building
its envelope (message-broker.ts:321): priority `medium`, `maxRetries = 1`,
`timeout = 1000`. -/
def broadcastDefaults (options : MessageOptions) : MessageOptions :=
  { priority := some (options.priority.getD .medium),
    maxRetries := some (jsOrNat options.maxRetries 1),
    timeout := some (jsOrNat options.timeout 1000) }

/-- `broadcastToAllTabs` (message-broker.ts:315): one envelope built with
the broadcast defaults, then one retried send per eligible tab.  The
envelope is returned alongside the per-tab results for inspection. -/
def broadcastToAllTabs (messageCounter now : Nat) (type payload : String)
    (options : MessageOptions) (eligibleTabs : List Nat)
    (outcome : Nat → AttemptOutcome) :
    Message × List (MessageDeliveryResult × List Nat) :=
  let message := createMessage messageCounter now type payload (broadcastDefaults options)
  (message, eligibleTabs.map (fun tabId => sendMessageWithRetry (outcome tabId) message))

/-- A transaction id `msg_tx_${counter}_${timestamp}`, kept as its two
numeric components (`id.split('_').pop()` recovers `timestamp`). -/
structure BrokerTx where
  counter : Nat
  timestamp : Nat
deriving DecidableEq, Repr

/-- The broker state relevant to the transaction table. -/
structure BrokerTxState where
  activeTransactions : List BrokerTx
  transactionCounter : Nat
deriving DecidableEq, Repr

/-- `maxActiveTransactions` (message-broker.ts:291). -/
def maxActiveTransactions : Nat := 100

/-- `cleanupOldTransactions` (message-broker.ts:585): deletes exactly the
transactions whose embedded timestamp is older than a cutoff of ten
minutes before `now`; nothing else is evicted. -/
def cleanupOldTransactions (now : Nat) (st : BrokerTxState) : BrokerTxState :=
  let cutoffTime := now - 10 * 60 * 1000
  { st with activeTransactions :=
      st.activeTransactions.filter (fun tx => ! (tx.timestamp < cutoffTime : Bool)) }

/-- `beginTransaction` (message-broker.ts:401): when the table is at or
above the cap it logs a warning and runs `cleanupOldTransactions`, then
unconditionally registers the new transaction. -/
def beginTransaction (now : Nat) (st : BrokerTxState) : BrokerTx × BrokerTxState :=
  let st1 := if st.activeTransactions.length ≥ maxActiveTransactions then
    cleanupOldTransactions now st else st
  let transactionCounter := st1.transactionCounter + 1
  let tx : BrokerTx := { counter := transactionCounter, timestamp := now }
  (tx, { activeTransactions := st1.activeTransactions ++ [tx],
         transactionCounter := transactionCounter })

/-! ## `initialize()` and the legacy harpoon migration (state-manager.ts:57) -/

/-- Durable storage contents for the state-manager keys (a missing key
reads as `null`, which the source replaces with the defaults shown). -/
structure StorageState where
  tabHistory : List Tab := []
  harpoonHistory : List Tab := []
  harpoonWindows : HarpoonWindows := []
  windowStates : WindowStates := []
  systemHealth : Option SystemHealth := none
deriving DecidableEq, Repr

/-- The `StateManager` instance fields. -/
structure ManagerState where
  tabHistoryState : List Tab := []
  harpoonTabsState : List Tab := []
  harpoonWindowsState : HarpoonWindows := []
  windowStatesState : WindowStates := []
  systemHealthState : SystemHealth
  isInitialized : Bool := false
deriving DecidableEq, Repr

/-- One step of the migration grouping (state-manager.ts:76-81):
`if (!acc[tab.windowId]) acc[tab.windowId] = []; acc[tab.windowId].push(tab)`. -/
def groupStep (acc : HarpoonWindows) (tab : Tab) : HarpoonWindows :=
  match recLookup acc tab.windowId with
  | none => acc ++ [(tab.windowId, [tab])]
  | some existing => recSet acc tab.windowId (existing ++ [tab])

/-- The migration grouping (state-manager.ts:75-81): walk the legacy list
in order, creating a partition at a tab's windowId on first sight and
appending the tab to its partition. -/
def groupTabsByWindow (tabs : List Tab) : HarpoonWindows :=
  tabs.foldl groupStep []

/-- `initialize()` (state-manager.ts:57): loads every slice; when legacy
flat harpoon data exists and the partitioned key is empty, groups the
legacy tabs by window, writes the partitioned form, and clears the legacy
key; otherwise adopts what was read.  Returns the new manager state and
the (possibly rewritten) storage contents. -/
def initializeStateManager (stg : StorageState) (st : ManagerState) : ManagerState × StorageState :=
  if st.isInitialized then (st, stg)
  else
    let tabHistory := stg.tabHistory
    let legacyHarpoonTabs := stg.harpoonHistory
    let harpoonWindows := stg.harpoonWindows
    let windowStates := stg.windowStates
    let systemHealth := stg.systemHealth.getD st.systemHealthState
    if legacyHarpoonTabs.length > 0 && harpoonWindows.length == 0 then
      let migratedHarpoonWindows := groupTabsByWindow legacyHarpoonTabs
      let stg' := { stg with harpoonWindows := migratedHarpoonWindows,
                             harpoonHistory := [] }
      ({ st with tabHistoryState := tabHistory,
                 harpoonWindowsState := migratedHarpoonWindows,
                 harpoonTabsState := [],
                 windowStatesState := windowStates,
                 systemHealthState := systemHealth,
                 isInitialized := true }, stg')
    else
      ({ st with tabHistoryState := tabHistory,
                 harpoonWindowsState := harpoonWindows,
                 harpoonTabsState := legacyHarpoonTabs,
                 windowStatesState := windowStates,
                 systemHealthState := systemHealth,
                 isInitialized := true }, stg)

/-! ## Auxiliary predicates and concrete inputs used by the theorems -/

/-- An attempt that does not deliver: either a result with `success:
false` or a thrown error. -/
def attemptIsFailure : Except String MessageDeliveryResult → Prop
  | .ok r => r.success = false
  | .error _ => True

/-- A concrete tab with the given id and windowId. -/
def mkTab (i w : Nat) : Tab :=
  { id := i, url := "https://example.test/", highlightedUrl := "",
    title := "Example", highlightedTitle := "", faviconUrl := "",
    screenshotUrl := "", windowId := w }

/-- A window-state `create` operation with an empty delta. -/
def winCreateOp : WindowStateOperation :=
  { type := .create, windowId := 1, state := some {} }

/-- The window-state record `create` builds for `winCreateOp` at time 5. -/
def winCreated : WindowState :=
  { id := 1, focused := false, lastActivity := 5, activeTabId := none }

/-- A transaction table already holding `maxActiveTransactions`
transactions, all carrying a recent embedded timestamp. -/
def capFullRecentState : BrokerTxState :=
  { activeTransactions :=
      (List.range 100).map (fun i => { counter := i + 1, timestamp := 1000000000 }),
    transactionCounter := 100 }

/-- A failed delivery result. -/
def connectionFailure : MessageDeliveryResult :=
  { success := false, error := some "Could not establish connection" }

/-- An attempt behaviour that fails every attempt. -/
def outFail : AttemptOutcome := fun _ => .ok connectionFailure

/-- An attempt behaviour that throws on attempts 0-2 and succeeds on
attempt 3. -/
def outLate : AttemptOutcome :=
  fun i => if i == 3 then .ok { success := true, response := some "pong" }
    else .error "Receiving end does not exist"

/-- A window-1 partition already holding tabs with ids 1..20. -/
def state20 : HarpoonWindows :=
  [(1, (List.range 20).map (fun i => mkTab (i + 1) 1))]

/-- Twenty-one tabs with ids 1..21 in window 1. -/
def tabs21 : List Tab :=
  (List.range 21).map (fun i => mkTab (i + 1) 1)

/-- Storage holding only legacy flat harpoon data spanning windows 1 and 2. -/
def legacyStorage : StorageState :=
  { harpoonHistory := [mkTab 1 1, mkTab 2 2, mkTab 3 1] }

/-- A fresh manager state (the constructor defaults, time fields at 0). -/
def freshManager : ManagerState :=
  { systemHealthState :=
      { version := 1, lastCleanup := 0, errorCount := 0, lastHealthCheck := 0 } }

/-- A component report whose score makes it critical. -/
def criticalReport : ComponentReport :=
  { name := "Harpoon Manager", score := 40,
    errors := ["Harpoon manager check failed"] }

/-- Component reports with one critical component but a high mean. -/
def mixedReports : List ComponentReport :=
  [{ name := "Storage", score := 100 },
   { name := "State Manager", score := 100 },
   { name := "Messaging", score := 100 },
   { name := "Tab Manager", score := 100 },
   { name := "Window Manager", score := 100 },
   { name := "Screenshot Manager", score := 100 },
   criticalReport]

/-- A listener that succeeds. -/
def okListener : Listener (List Tab) := fun _ _ => .ok ()

/-- A listener that throws. -/
def badListener : Listener (List Tab) := fun _ _ => .error "listener failed"

/-! # Theorems -/

/-! ## C3 — error trip wire -/

/-- C3 counterexample: starting from `errorCount = 0`, after exactly 10
consecutive uncaught errors the persisted count is 10 but
`recoverFromCorruption()` has never been invoked (the threshold check
reads the stale, pre-increment count). -/
theorem handleError_ten_errors_no_recovery :
    afterErrors 10 = { errorCount := 10, recoveryCalls := 0 } := by
  decide

/-- C3 (amended): every uncaught error increments the persisted
`errorCount` by exactly one, and `recoverFromCorruption()` is triggered
exactly when the pre-increment count has already reached the threshold of
10 — so, from zero, the automatic recovery fires on the 11th consecutive
error, not the 10th. -/
theorem handleError_increment_and_late_tripwire :
    (∀ st : RecoverySim, (handleError st).errorCount = st.errorCount + 1) ∧
    (∀ st : RecoverySim, (handleError st).recoveryCalls =
      st.recoveryCalls + (if criticalErrorThreshold ≤ st.errorCount then 1 else 0)) ∧
    (afterErrors 10).recoveryCalls = 0 ∧
    (afterErrors 11).recoveryCalls = 1 := by
  refine ⟨fun st => ?_, fun st => ?_, by decide, by decide⟩
  · by_cases h : criticalErrorThreshold ≤ st.errorCount <;>
      simp [handleError, ge_iff_le, h]
  · by_cases h : criticalErrorThreshold ≤ st.errorCount <;>
      simp [handleError, ge_iff_le, h]

/-! ## C4 — transaction-table cap -/

/-- C4 counterexample: with the transaction table at the cap of 100 and
every transaction carrying a recent embedded timestamp, the cleanup run
by `beginTransaction()` evicts nothing and the table grows to 101
entries, exceeding the cap. -/
theorem beginTransaction_cap_exceeded :
    maxActiveTransactions = 100 ∧
    capFullRecentState.activeTransactions.length = 100 ∧
    (beginTransaction 1000000000 capFullRecentState).2.activeTransactions.length = 101 := by
  refine ⟨rfl, by decide, by decide⟩

/-- C4 (amended): when `beginTransaction()` finds the table at or above
the cap, it deletes exactly the transactions whose embedded timestamp is
older than ten minutes before now (with a logged warning) and then
registers the new transaction unconditionally; the resulting table holds
the surviving recent transactions plus the new one, which can exceed the
cap when fewer than needed are stale. -/
theorem beginTransaction_cleanup_by_age (now : Nat) (st : BrokerTxState)
    (hfull : maxActiveTransactions ≤ st.activeTransactions.length) :
    (beginTransaction now st).2.activeTransactions =
      st.activeTransactions.filter
        (fun tx => ! (tx.timestamp < now - 10 * 60 * 1000 : Bool))
        ++ [{ counter := st.transactionCounter + 1, timestamp := now }] ∧
    (beginTransaction now st).2.activeTransactions.length =
      (st.activeTransactions.filter
        (fun tx => ! (tx.timestamp < now - 10 * 60 * 1000 : Bool))).length + 1 := by
  unfold beginTransaction cleanupOldTransactions
  rw [if_pos hfull]
  constructor
  · rfl
  · simp

/-- C4 witness: the amended statement applied to the concrete full table
of 100 recent transactions. -/
theorem beginTransaction_cleanup_by_age_witness :
    maxActiveTransactions ≤ capFullRecentState.activeTransactions.length ∧
    (beginTransaction 1000000000 capFullRecentState).2.activeTransactions =
      capFullRecentState.activeTransactions.filter
        (fun tx => ! (tx.timestamp < 1000000000 - 10 * 60 * 1000 : Bool))
        ++ [{ counter := capFullRecentState.transactionCounter + 1,
              timestamp := 1000000000 }] :=
  ⟨by decide,
   (beginTransaction_cleanup_by_age 1000000000 capFullRecentState (by decide)).1⟩

/-! ## C8 — health aggregation -/

/-- C8: `checkHealth()` returns an overall score equal to the arithmetic
mean of the component scores, and the overall status is `critical`
whenever any component's status is critical, regardless of the mean;
otherwise it is `healthy` when the mean is at least 90, `degraded` when
at least 70, and `critical` below that. -/
theorem checkHealth_mean_and_overall_status (now : Nat)
    (reports : List ComponentReport) (_hne : reports ≠ []) :
    (checkHealth now reports).overallScore =
      (((checkHealth now reports).components.map (fun c => (c.score : ℚ))).sum) /
        (((checkHealth now reports).components.length : ℚ)) ∧
    ((∃ c ∈ (checkHealth now reports).components, c.status = .critical) →
      (checkHealth now reports).status = .critical) ∧
    ((∀ c ∈ (checkHealth now reports).components, c.status ≠ .critical) →
      (checkHealth now reports).status =
        (if (checkHealth now reports).overallScore ≥ 90 then .healthy
         else if (checkHealth now reports).overallScore ≥ 70 then .degraded
         else .critical)) := by
  have hs : (checkHealth now reports).status =
      determineOverallStatus (checkHealth now reports).components
        (checkHealth now reports).overallScore := rfl
  refine ⟨rfl, ?_, ?_⟩
  · rintro ⟨c, hc, hcrit⟩
    rw [hs]
    unfold determineOverallStatus
    have hpos : 0 <
        ((checkHealth now reports).components.filter
          (fun c => c.status == HealthStatus.critical)).length := by
      apply List.length_pos.mpr
      intro hnil
      have hnc := List.filter_eq_nil_iff.mp hnil c hc
      rw [hcrit] at hnc
      exact absurd hnc (by decide)
    simp only [hpos, if_pos]
  · intro h
    rw [hs]
    unfold determineOverallStatus
    have hnil : ((checkHealth now reports).components.filter
        (fun c => c.status == HealthStatus.critical)) = [] := by
      apply List.filter_eq_nil_iff.mpr
      intro c hc hbeq
      exact h c hc (of_decide_eq_true hbeq)
    rw [hnil]
    simp

/-- C8 witness: seven concrete component reports, one critical with score
40, mean 640/7 ≈ 91.4: the overall status is `critical` despite the high
mean. -/
theorem checkHealth_mean_and_overall_status_witness :
    mixedReports ≠ [] ∧
    (∃ c ∈ (checkHealth 7 mixedReports).components, c.status = .critical) ∧
    (checkHealth 7 mixedReports).status = .critical ∧
    (checkHealth 7 mixedReports).overallScore ≥ 90 :=
  ⟨by decide, ⟨mkComponentHealth 7 criticalReport, by decide, by decide⟩,
    (checkHealth_mean_and_overall_status 7 mixedReports (by decide)).2.1
      ⟨mkComponentHealth 7 criticalReport, by decide, by decide⟩,
    by show (90:ℚ) ≤ _
       simp [checkHealth, mkComponentHealth, mixedReports, criticalReport]
       norm_num⟩

/-! ## C9 — synchronous listener fan-out -/

theorem notifyListeners_eq_map {σ : Type} (ls : List (Listener σ)) (n p : σ) :
    notifyListeners ls n p = ls.map (fun f => f n p) := by
  induction ls with
  | nil => rfl
  | cons f rest ih => simp [notifyListeners, ih]

/-- C9: a tab-history update that resolves delivers exactly one
notification event carrying `(newState, previousState)`; the fan-out
invokes every subscribed listener exactly once with that pair, in order,
and (because each invocation is individually wrapped) a throwing listener
never prevents the invocation of the remaining listeners. -/
theorem updateTabHistory_listener_fanout :
    (∀ (st : List Tab) (op : TabHistoryOperation) steps,
      updateTabHistorySteps st op = .ok steps →
      ∃ new, applyTabHistoryOperation st op = .ok new ∧
        (runSteps true st steps).2.2 = [(new, st)]) ∧
    (∀ (ls : List (Listener (List Tab))) (n p : List Tab),
      notifyListeners ls n p = ls.map (fun f => f n p)) ∧
    (∀ (ls₁ ls₂ : List (Listener (List Tab))) (f : Listener (List Tab)) (n p : List Tab),
      notifyListeners (ls₁ ++ f :: ls₂) n p =
        notifyListeners ls₁ n p ++ f n p :: notifyListeners ls₂ n p) := by
  refine ⟨?_, notifyListeners_eq_map, ?_⟩
  · intro st op steps hsteps
    unfold updateTabHistorySteps at hsteps
    split at hsteps
    · exact absurd hsteps (by simp)
    · next newState happly =>
      split at hsteps
      · exact absurd hsteps (by simp)
      · obtain rfl : [UpdateStep.setMem newState, .persist newState,
            .notify newState st] = steps := by
          simpa using hsteps
        exact ⟨newState, happly, by simp [runSteps]⟩
  · intro ls₁ ls₂ f n p
    simp [notifyListeners_eq_map, notifyListeners]

/-- C9 witness: the fan-out fact applied to a concrete add operation on an
empty history. -/
theorem updateTabHistory_listener_fanout_witness :
    updateTabHistorySteps [] { type := .add, tab := some (mkTab 1 1) } =
      .ok [.setMem [mkTab 1 1], .persist [mkTab 1 1], .notify [mkTab 1 1] []] ∧
    (∃ new, applyTabHistoryOperation [] { type := .add, tab := some (mkTab 1 1) } = .ok new ∧
      (runSteps true ([] : List Tab)
        [.setMem [mkTab 1 1], .persist [mkTab 1 1], .notify [mkTab 1 1] []]).2.2 =
        [(new, [])]) ∧
    notifyListeners [badListener, okListener] [mkTab 1 1] [] =
      [.error "listener failed", .ok ()] :=
  ⟨rfl,
   updateTabHistory_listener_fanout.1 [] { type := .add, tab := some (mkTab 1 1) }
     [.setMem [mkTab 1 1], .persist [mkTab 1 1], .notify [mkTab 1 1] []] rfl,
   rfl⟩

/-! ## C7 — retried delivery -/

theorem attemptStep_of_failure {e : Except String MessageDeliveryResult}
    (h : attemptIsFailure e) : ∃ s, attemptStep e = .inr s := by
  cases e with
  | ok r =>
    have hr : r.success = false := h
    refine ⟨(match r.error with
      | none => "Unknown error"
      | some s => if s = "" then "Unknown error" else s), ?_⟩
    simp [attemptStep, hr]
  | error s => exact ⟨s, rfl⟩

theorem retryAux_all_fail (outcome : AttemptOutcome) :
    ∀ (remaining attempt : Nat),
      (∀ i, attempt ≤ i → i ≤ attempt + remaining → attemptIsFailure (outcome i)) →
      (sendMessageWithRetryAux outcome attempt remaining).1.success = false ∧
      (sendMessageWithRetryAux outcome attempt remaining).2 =
        (List.range remaining).map (fun j => 2 ^ (attempt + j) * 100) := by
  intro remaining
  induction remaining with
  | zero =>
    intro attempt h
    obtain ⟨s, hs⟩ := attemptStep_of_failure (h attempt (Nat.le_refl _) (by omega))
    simp [sendMessageWithRetryAux, hs]
  | succ n ih =>
    intro attempt h
    obtain ⟨s, hs⟩ := attemptStep_of_failure (h attempt (Nat.le_refl _) (by omega))
    have step : sendMessageWithRetryAux outcome attempt (n + 1) =
        ((sendMessageWithRetryAux outcome (attempt + 1) n).1,
          2 ^ attempt * 100 :: (sendMessageWithRetryAux outcome (attempt + 1) n).2) := by
      simp only [sendMessageWithRetryAux, hs]
    obtain ⟨ihs, ihd⟩ := ih (attempt + 1) (fun i h1 h2 => h i (by omega) (by omega))
    rw [step]
    refine ⟨ihs, ?_⟩
    rw [ihd, List.range_succ_eq_map, List.map_cons, List.map_map]
    refine congrArg₂ _ (by norm_num) (List.map_congr_left ?_)
    intro j _
    show 2 ^ (attempt + 1 + j) * 100 = 2 ^ (attempt + (j + 1)) * 100
    rw [show attempt + 1 + j = attempt + (j + 1) from by omega]

theorem retryAux_success (outcome : AttemptOutcome) :
    ∀ (k remaining attempt : Nat) (r : MessageDeliveryResult), k ≤ remaining →
      (∀ i, attempt ≤ i → i < attempt + k → attemptIsFailure (outcome i)) →
      outcome (attempt + k) = .ok r → r.success = true →
      (sendMessageWithRetryAux outcome attempt remaining).1 = r ∧
      (sendMessageWithRetryAux outcome attempt remaining).2.length = k := by
  intro k
  induction k with
  | zero =>
    intro remaining attempt r _ _ hout hr
    have hstep : attemptStep (outcome attempt) = .inl r := by
      have : outcome attempt = .ok r := by simpa using hout
      simp [attemptStep, this, hr]
    cases remaining <;> simp [sendMessageWithRetryAux, hstep]
  | succ k ih =>
    intro remaining attempt r hk hfail hout hr
    obtain ⟨s, hs⟩ := attemptStep_of_failure (hfail attempt (Nat.le_refl _) (by omega))
    obtain ⟨n, rfl⟩ : ∃ n, remaining = n + 1 := by
      cases remaining with
      | zero => omega
      | succ n => exact ⟨n, rfl⟩
    have step : sendMessageWithRetryAux outcome attempt (n + 1) =
        ((sendMessageWithRetryAux outcome (attempt + 1) n).1,
          2 ^ attempt * 100 :: (sendMessageWithRetryAux outcome (attempt + 1) n).2) := by
      simp only [sendMessageWithRetryAux, hs]
    obtain ⟨ih1, ih2⟩ := ih n (attempt + 1) r (by omega)
      (fun i h1 h2 => hfail i (by omega) (by omega))
      (by rw [show attempt + 1 + k = attempt + (k + 1) from by omega]; exact hout) hr
    rw [step]
    exact ⟨ih1, by simp [ih2]⟩

theorem retryAux_delays_le (outcome : AttemptOutcome) :
    ∀ (remaining attempt : Nat),
      (sendMessageWithRetryAux outcome attempt remaining).2.length ≤ remaining := by
  intro remaining
  induction remaining with
  | zero =>
    intro attempt
    simp only [sendMessageWithRetryAux]
    cases attemptStep (outcome attempt) <;> simp
  | succ n ih =>
    intro attempt
    simp only [sendMessageWithRetryAux]
    cases attemptStep (outcome attempt) with
    | inl r => simp
    | inr s => simpa using Nat.succ_le_succ (ih (attempt + 1))

/-- C7: `sendMessage` builds its envelope with defaults `maxRetries = 3`
and `timeout = 5000`; the retry loop is a total function returning a
discriminated result (never throws), makes the initial attempt plus up to
`maxRetries` retries with backoff delays of `2^attempt * 100` ms (100,
200, 400, ...), returns a failure result when every attempt fails, and
returns the successful result when a later attempt succeeds after
earlier failures. -/
theorem sendMessage_retry_contract :
    (∀ (c n : Nat) (ty pl : String),
      (createMessage c n ty pl {}).maxRetries = 3 ∧
      (createMessage c n ty pl {}).timeout = 5000) ∧
    (∀ (outcome : AttemptOutcome) (message : Message),
      (∀ i, i ≤ message.maxRetries → attemptIsFailure (outcome i)) →
      (sendMessageWithRetry outcome message).1.success = false ∧
      (sendMessageWithRetry outcome message).2 =
        (List.range message.maxRetries).map (fun j => 2 ^ j * 100)) ∧
    (∀ (outcome : AttemptOutcome) (message : Message) (k : Nat)
        (r : MessageDeliveryResult),
      k ≤ message.maxRetries →
      (∀ i, i < k → attemptIsFailure (outcome i)) →
      outcome k = .ok r → r.success = true →
      (sendMessageWithRetry outcome message).1 = r ∧
      (sendMessageWithRetry outcome message).2.length = k) := by
  refine ⟨fun c n ty pl => ⟨rfl, rfl⟩, ?_, ?_⟩
  · intro outcome message h
    obtain ⟨h1, h2⟩ := retryAux_all_fail outcome message.maxRetries 0
      (fun i hi1 hi2 => h i (by omega))
    exact ⟨h1, by simpa using h2⟩
  · intro outcome message k r hk hfail hout hr
    exact retryAux_success outcome k message.maxRetries 0 r hk
      (fun i h1 h2 => hfail i (by omega)) (by simpa using hout) hr

/-- C7 witness: with the default envelope (maxRetries 3), an
always-failing behaviour yields a failure result after delays 100, 200,
400; a behaviour that throws on attempts 0-2 and succeeds on attempt 3
yields that success result. -/
theorem sendMessage_retry_contract_witness :
    (∀ i, i ≤ (createMessage 0 0 "ping" "p" {}).maxRetries →
      attemptIsFailure (outFail i)) ∧
    (sendMessageWithRetry outFail (createMessage 0 0 "ping" "p" {})).1.success = false ∧
    (sendMessageWithRetry outFail (createMessage 0 0 "ping" "p" {})).2 =
      (List.range (createMessage 0 0 "ping" "p" {}).maxRetries).map
        (fun j => 2 ^ j * 100) ∧
    (sendMessageWithRetry outLate (createMessage 0 0 "ping" "p" {})).1 =
      { success := true, response := some "pong" } :=
  ⟨fun _ _ => rfl,
   (sendMessage_retry_contract.2.1 outFail (createMessage 0 0 "ping" "p" {})
     (fun i _ => rfl)).1,
   (sendMessage_retry_contract.2.1 outFail (createMessage 0 0 "ping" "p" {})
     (fun i _ => rfl)).2,
   (sendMessage_retry_contract.2.2 outLate (createMessage 0 0 "ping" "p" {}) 3
     { success := true, response := some "pong" } (by decide)
     (fun i hi => by
       interval_cases i <;> exact trivial)
     rfl rfl).1⟩

/-! ## C10 — broadcast fast defaults -/

/-- C10: with no caller options, `broadcastToAllTabs` builds its envelope
with `maxRetries = 1` and `timeout = 1000` — unlike the `sendMessage`
defaults of 3 and 5000 — so every eligible endpoint sees at most 2
delivery attempts (at most one backoff delay), each attempt bounded by
the envelope's 1000 ms timeout. -/
theorem broadcastToAllTabs_fast_defaults :
    (∀ (c n : Nat) (ty pl : String) (tabs : List Nat)
        (outcome : Nat → AttemptOutcome),
      (broadcastToAllTabs c n ty pl {} tabs outcome).1.maxRetries = 1 ∧
      (broadcastToAllTabs c n ty pl {} tabs outcome).1.timeout = 1000 ∧
      ∀ res ∈ (broadcastToAllTabs c n ty pl {} tabs outcome).2,
        res.2.length + 1 ≤ 2) ∧
    (∀ (c n : Nat) (ty pl : String),
      (createMessage c n ty pl {}).maxRetries = 3 ∧
      (createMessage c n ty pl {}).timeout = 5000) := by
  refine ⟨?_, fun c n ty pl => ⟨rfl, rfl⟩⟩
  intro c n ty pl tabs outcome
  refine ⟨rfl, rfl, ?_⟩
  intro res hres
  simp only [broadcastToAllTabs, List.mem_map] at hres
  obtain ⟨tabId, _, rfl⟩ := hres
  have hd := retryAux_delays_le (outcome tabId) 1 0
  simpa [sendMessageWithRetry] using Nat.succ_le_succ hd

/-- C10 witness: a concrete one-endpoint broadcast with no options whose
single result took one failed attempt plus one retry. -/
theorem broadcastToAllTabs_fast_defaults_witness :
    (broadcastToAllTabs 0 0 "notify" "p" {} [7] (fun _ => outFail)).1.maxRetries = 1 ∧
    (broadcastToAllTabs 0 0 "notify" "p" {} [7] (fun _ => outFail)).1.timeout = 1000 ∧
    (connectionFailure, ([100] : List Nat)) ∈
      (broadcastToAllTabs 0 0 "notify" "p" {} [7] (fun _ => outFail)).2 ∧
    ((connectionFailure, ([100] : List Nat)).2.length + 1 ≤ 2) :=
  have hmem : (connectionFailure, ([100] : List Nat)) ∈
      (broadcastToAllTabs 0 0 "notify" "p" {} [7] (fun _ => outFail)).2 := by
    have hlist : (broadcastToAllTabs 0 0 "notify" "p" {} [7] (fun _ => outFail)).2 =
        [(connectionFailure, [100])] := rfl
    rw [hlist]
    exact List.mem_singleton.mpr rfl
  ⟨(broadcastToAllTabs_fast_defaults.1 0 0 "notify" "p" [7] (fun _ => outFail)).1,
   (broadcastToAllTabs_fast_defaults.1 0 0 "notify" "p" [7] (fun _ => outFail)).2.1,
   hmem,
   (broadcastToAllTabs_fast_defaults.1 0 0 "notify" "p" [7] (fun _ => outFail)).2.2
     _ hmem⟩

/-! ## C1 — in-memory update vs. persistence-write order -/

/-- C1 counterexample: for `updateWindowState` the source awaits the
`storage.write` BEFORE assigning the in-memory slice, so a synchronous
read issued while the write is pending — or after it fails — still sees
the OLD value, refuting the claim for that update function: here a
`create` of window 1 over an empty slice with a failing write leaves the
in-memory slice empty instead of holding the new record. -/
theorem updateWindowState_order_counterexample :
    updateWindowStateSteps 5 [] winCreateOp =
      .ok [.persist [(1, winCreated)], .setMem [(1, winCreated)],
        .notify [(1, winCreated)] []] ∧
    applyWindowStateOperation 5 [] winCreateOp = .ok [(1, winCreated)] ∧
    memAtPersist ([] : WindowStates)
      [.persist [(1, winCreated)], .setMem [(1, winCreated)],
        .notify [(1, winCreated)] []] = [] ∧
    (runSteps false ([] : WindowStates)
      [.persist [(1, winCreated)], .setMem [(1, winCreated)],
        .notify [(1, winCreated)] []]).1 = [] ∧
    ([] : WindowStates) ≠ [(1, winCreated)] :=
  ⟨rfl, rfl, rfl, rfl, by decide⟩

/-- C1 (amended): `updateTabHistory` and `updateHarpoonTabs` replace the
in-memory slice before the persistence write, so reads during a pending
write and after a failed write see the new value; `updateWindowState` and
`updateSystemHealth` await the persistence write first and assign the
in-memory slice only after it resolves, so reads during a pending write
see the old value and a failed write leaves the old value in place. -/
theorem update_memory_vs_persist_order :
    (∀ (st : List Tab) (op : TabHistoryOperation) steps (writeOk : Bool),
      updateTabHistorySteps st op = .ok steps →
      ∃ new, applyTabHistoryOperation st op = .ok new ∧
        memAtPersist st steps = new ∧ (runSteps writeOk st steps).1 = new) ∧
    (∀ (st : HarpoonWindows) (op : HarpoonOperation) steps (writeOk : Bool),
      updateHarpoonTabsSteps st op = .ok steps →
      ∃ new, updateHarpoonTabs st op = .ok new ∧
        memAtPersist st steps = new ∧ (runSteps writeOk st steps).1 = new) ∧
    (∀ (now : Nat) (st : WindowStates) (op : WindowStateOperation) steps,
      updateWindowStateSteps now st op = .ok steps →
      ∃ new, applyWindowStateOperation now st op = .ok new ∧
        memAtPersist st steps = st ∧
        (runSteps true st steps).1 = new ∧ (runSteps false st steps).1 = st) ∧
    (∀ (st : SystemHealth) (updates : SystemHealthDelta) steps,
      updateSystemHealthSteps st updates = .ok steps →
      memAtPersist st steps = st ∧
      (runSteps true st steps).1 = mergeSystemHealth st updates ∧
      (runSteps false st steps).1 = st) := by
  refine ⟨?_, ?_, ?_, ?_⟩
  · intro st op steps writeOk hsteps
    unfold updateTabHistorySteps at hsteps
    split at hsteps
    · exact absurd hsteps (by simp)
    · next newState happly =>
      split at hsteps
      · exact absurd hsteps (by simp)
      · obtain rfl : [UpdateStep.setMem newState, .persist newState,
            .notify newState st] = steps := by simpa using hsteps
        exact ⟨newState, happly, rfl, by cases writeOk <;> simp [runSteps, memAtPersist]⟩
  · intro st op steps writeOk hsteps
    unfold updateHarpoonTabsSteps at hsteps
    split at hsteps
    · exact absurd hsteps (by simp)
    · next newState hupd =>
      obtain rfl : [UpdateStep.setMem newState, .persist newState,
          .notify newState st] = steps := by simpa using hsteps
      exact ⟨newState, hupd, rfl, by cases writeOk <;> simp [runSteps, memAtPersist]⟩
  · intro now st op steps hsteps
    unfold updateWindowStateSteps at hsteps
    split at hsteps
    · exact absurd hsteps (by simp)
    · next newState happly =>
      obtain rfl : [UpdateStep.persist newState, .setMem newState,
          .notify newState st] = steps := by simpa using hsteps
      exact ⟨newState, happly, rfl, by simp [runSteps], by simp [runSteps]⟩
  · intro st updates steps hsteps
    obtain rfl : [UpdateStep.persist (mergeSystemHealth st updates),
        .setMem (mergeSystemHealth st updates),
        .notify (mergeSystemHealth st updates) st] = steps := by
      simpa [updateSystemHealthSteps] using hsteps
    exact ⟨rfl, by simp [runSteps], by simp [runSteps]⟩

/-- C1 witness: the amended statement applied to a concrete successful
tab-history `add` (new value visible even with a failing write) and a
concrete window-state `create` (old value still visible with a failing
write). -/
theorem update_memory_vs_persist_order_witness :
    (∃ new, applyTabHistoryOperation [] { type := .add, tab := some (mkTab 1 1) } =
        .ok new ∧
      memAtPersist ([] : List Tab)
        [.setMem [mkTab 1 1], .persist [mkTab 1 1], .notify [mkTab 1 1] []] = new ∧
      (runSteps false ([] : List Tab)
        [.setMem [mkTab 1 1], .persist [mkTab 1 1], .notify [mkTab 1 1] []]).1 = new) ∧
    (∃ new, applyWindowStateOperation 5 [] winCreateOp = .ok new ∧
      memAtPersist ([] : WindowStates)
        [.persist [(1, winCreated)], .setMem [(1, winCreated)],
          .notify [(1, winCreated)] []] = [] ∧
      (runSteps true ([] : WindowStates)
        [.persist [(1, winCreated)], .setMem [(1, winCreated)],
          .notify [(1, winCreated)] []]).1 = new ∧
      (runSteps false ([] : WindowStates)
        [.persist [(1, winCreated)], .setMem [(1, winCreated)],
          .notify [(1, winCreated)] []]).1 = []) :=
  ⟨update_memory_vs_persist_order.1 [] { type := .add, tab := some (mkTab 1 1) }
     [.setMem [mkTab 1 1], .persist [mkTab 1 1], .notify [mkTab 1 1] []] false rfl,
   update_memory_vs_persist_order.2.2.1 5 [] winCreateOp
     [.persist [(1, winCreated)], .setMem [(1, winCreated)],
       .notify [(1, winCreated)] []] rfl⟩

/-! ## C2 — per-window harpoon partition invariant -/

theorem recLookup_mem {β : Type} {m : List (Nat × β)} {k : Nat} {v : β}
    (h : recLookup m k = some v) : (k, v) ∈ m := by
  unfold recLookup at h
  cases hf : m.find? (fun p => p.1 == k) with
  | none => rw [hf] at h; simp at h
  | some p =>
    rw [hf] at h
    obtain rfl : p.2 = v := by simpa using h
    have hk : p.1 = k := by simpa using List.find?_some hf
    have hm := List.mem_of_find?_eq_some hf
    rw [← hk]
    simpa using hm

theorem mem_getHarpoonTabsForWindow_windowId {st : HarpoonWindows} {w : Nat}
    (hinv : harpoonPartitionInv st) :
    ∀ t ∈ getHarpoonTabsForWindow st w, t.windowId = w := by
  intro t ht
  unfold getHarpoonTabsForWindow at ht
  cases hl : recLookup st w with
  | none => rw [hl] at ht; simp at ht
  | some v =>
    rw [hl] at ht
    exact hinv (w, v) (recLookup_mem hl) t (by simpa using ht)

theorem applyHarpoon_windowId {ws : List Tab} {op : HarpoonOperation} {new : List Tab}
    (hws : ∀ t ∈ ws, t.windowId = op.windowId)
    (h : applyHarpoonOperationToWindow ws op = .ok new) :
    ∀ t ∈ new, t.windowId = op.windowId := by
  unfold applyHarpoonOperationToWindow at h
  split at h
  · -- add
    split at h
    · exact absurd h (by simp)
    · next tab _ =>
      split at h
      · exact absurd h (by simp)
      · next hcond =>
        obtain rfl : ws.filter (fun t => t.id != tab.id) ++ [tab] = new := by
          simpa using h
        intro t ht
        rcases List.mem_append.mp ht with hin | hin
        · exact hws t (List.mem_of_mem_filter hin)
        · obtain rfl : t = tab := by simpa using hin
          simpa [bne] using hcond
  · -- remove
    split at h
    · exact absurd h (by simp)
    · next tabId _ =>
      obtain rfl : ws.filter (fun t => t.id != tabId) = new := by simpa using h
      intro t ht
      exact hws t (List.mem_of_mem_filter ht)
  · -- update
    split at h
    · exact absurd h (by simp)
    · next tab _ =>
      split at h
      · exact absurd h (by simp)
      · next hcond =>
        obtain rfl : ws.map (fun t => if t.id == tab.id then tab else t) = new := by
          simpa using h
        intro t ht
        obtain ⟨q, hq, hqt⟩ := List.mem_map.mp ht
        by_cases hid : (q.id == tab.id) = true
        · rw [if_pos hid] at hqt
          subst hqt
          simpa [bne] using hcond
        · rw [if_neg hid] at hqt
          subst hqt
          exact hws q hq
  · -- clear
    obtain rfl : ([] : List Tab) = new := by simpa using h
    intro t ht
    simp at ht
  · -- reorder
    split at h
    · exact absurd h (by simp)
    · next tabs _ =>
      split at h
      · exact absurd h (by simp)
      · next hcond =>
        obtain rfl : tabs = new := by simpa using h
        intro t ht
        have hall : ∀ x ∈ tabs, x.windowId = op.windowId := by simpa using hcond
        exact hall t ht

theorem updateHarpoonTabs_inv {st : HarpoonWindows} {op : HarpoonOperation}
    {st' : HarpoonWindows} (hinv : harpoonPartitionInv st)
    (h : updateHarpoonTabs st op = .ok st') : harpoonPartitionInv st' := by
  unfold updateHarpoonTabs at h
  split at h
  · exact absurd h (by simp)
  · next newWindowState happly =>
    have hnew : ∀ t ∈ newWindowState, t.windowId = op.windowId :=
      applyHarpoon_windowId (mem_getHarpoonTabsForWindow_windowId hinv) happly
    split at h
    · exact absurd h (by simp)
    · split at h
      · obtain rfl : recDel st op.windowId = st' := by simpa using h
        intro p hp t ht
        exact hinv p (List.mem_of_mem_filter hp) t ht
      · obtain rfl : recSet st op.windowId newWindowState = st' := by simpa using h
        intro p hp t ht
        unfold recSet at hp
        split at hp
        · obtain ⟨q, hq, hpq⟩ := List.mem_map.mp hp
          by_cases hqk : (q.1 == op.windowId) = true
          · rw [if_pos hqk] at hpq
            subst hpq
            have : t.windowId = op.windowId := hnew t ht
            simpa [this] using (by simpa using hqk : q.1 = op.windowId).symm
          · rw [if_neg hqk] at hpq
            subst hpq
            exact hinv q hq t ht
        · rcases List.mem_append.mp hp with hin | hin
          · exact hinv p hin t ht
          · obtain rfl : p = (op.windowId, newWindowState) := by simpa using hin
            exact hnew t ht

theorem runHarpoonOps_inv (ops : List HarpoonOperation) :
    ∀ st, harpoonPartitionInv st → harpoonPartitionInv (runHarpoonOps st ops) := by
  induction ops with
  | nil => intro st h; exact h
  | cons op rest ih =>
    intro st h
    have hrw : runHarpoonOps st (op :: rest) =
        runHarpoonOps (match updateHarpoonTabs st op with
          | .ok s' => s'
          | .error _ => st) rest := rfl
    rw [hrw]
    cases hu : updateHarpoonTabs st op with
    | ok s' => exact ih s' (updateHarpoonTabs_inv h hu)
    | error e => exact ih st h

theorem updateHarpoonTabs_mismatch_add_update {st : HarpoonWindows}
    {op : HarpoonOperation} {tab : Tab}
    (hty : op.type = .add ∨ op.type = .update) (htab : op.tab = some tab)
    (hne : tab.windowId ≠ op.windowId) :
    updateHarpoonTabs st op =
      .error "Tab window ID does not match operation window ID" := by
  have hbne : (tab.windowId != op.windowId) = true := by simpa [bne] using hne
  unfold updateHarpoonTabs applyHarpoonOperationToWindow
  rcases hty with hty | hty <;> rw [hty, htab] <;> simp [hbne]

theorem updateHarpoonTabs_mismatch_reorder {st : HarpoonWindows}
    {op : HarpoonOperation} {tabs : List Tab} {tab : Tab}
    (hty : op.type = .reorder) (htabs : op.tabs = some tabs) (hmem : tab ∈ tabs)
    (hne : tab.windowId ≠ op.windowId) :
    updateHarpoonTabs st op =
      .error "Tab window ID does not match operation window ID" := by
  have hany : (tabs.any (fun t => t.windowId != op.windowId)) = true :=
    List.any_eq_true.mpr ⟨tab, hmem, by simpa [bne] using hne⟩
  unfold updateHarpoonTabs applyHarpoonOperationToWindow
  rw [hty, htabs]
  simp [hany]

theorem runHarpoonOps_single_error {st : HarpoonWindows} {op : HarpoonOperation}
    {e : String} (h : updateHarpoonTabs st op = .error e) :
    runHarpoonOps st [op] = st := by
  have hrw : runHarpoonOps st [op] =
      (match updateHarpoonTabs st op with
        | .ok s' => s'
        | .error _ => st) := rfl
  rw [hrw, h]

/-- C2: starting from any state satisfying the per-window invariant (in
particular the empty initial store), after any sequence of
`updateHarpoonTabs` operations every member of any window's partition
carries that window's id; and any `add`/`update`/`reorder` operation
containing a tab whose `windowId` differs from the operation's `windowId`
throws the mismatch error, leaving the in-memory state completely
unchanged. -/
theorem harpoon_partition_windowId_invariant :
    (∀ (st0 : HarpoonWindows) (ops : List HarpoonOperation) (w : Nat),
      harpoonPartitionInv st0 →
      ∀ t ∈ getHarpoonTabsForWindow (runHarpoonOps st0 ops) w, t.windowId = w) ∧
    (∀ (st : HarpoonWindows) (op : HarpoonOperation) (tab : Tab),
      (op.type = .add ∨ op.type = .update) → op.tab = some tab →
      tab.windowId ≠ op.windowId →
      updateHarpoonTabs st op =
        .error "Tab window ID does not match operation window ID" ∧
      runHarpoonOps st [op] = st) ∧
    (∀ (st : HarpoonWindows) (op : HarpoonOperation) (tabs : List Tab) (tab : Tab),
      op.type = .reorder → op.tabs = some tabs → tab ∈ tabs →
      tab.windowId ≠ op.windowId →
      updateHarpoonTabs st op =
        .error "Tab window ID does not match operation window ID" ∧
      runHarpoonOps st [op] = st) := by
  refine ⟨?_, ?_, ?_⟩
  · intro st0 ops w hinv
    exact mem_getHarpoonTabsForWindow_windowId (runHarpoonOps_inv ops st0 hinv)
  · intro st op tab hty htab hne
    have herr : updateHarpoonTabs st op =
        .error "Tab window ID does not match operation window ID" :=
      updateHarpoonTabs_mismatch_add_update hty htab hne
    exact ⟨herr, runHarpoonOps_single_error herr⟩
  · intro st op tabs tab hty htabs hmem hne
    have herr : updateHarpoonTabs st op =
        .error "Tab window ID does not match operation window ID" :=
      updateHarpoonTabs_mismatch_reorder hty htabs hmem hne
    exact ⟨herr, runHarpoonOps_single_error herr⟩

/-- C2 witness: from the empty store, after adding a window-1 tab and a
window-2 tab the window-1 partition only holds window-1 tabs; and a
concrete `add` whose tab belongs to window 2 but targets window 1 throws
and leaves the state unchanged. -/
theorem harpoon_partition_windowId_invariant_witness :
    harpoonPartitionInv [] ∧
    (∀ t ∈ getHarpoonTabsForWindow
      (runHarpoonOps []
        [{ type := .add, windowId := 1, tab := some (mkTab 1 1) },
         { type := .add, windowId := 2, tab := some (mkTab 2 2) }]) 1,
      t.windowId = 1) ∧
    ((mkTab 5 2).windowId ≠ 1 ∧
      updateHarpoonTabs [(1, [mkTab 1 1])]
        { type := .add, windowId := 1, tab := some (mkTab 5 2) } =
        .error "Tab window ID does not match operation window ID" ∧
      runHarpoonOps [(1, [mkTab 1 1])]
        [{ type := .add, windowId := 1, tab := some (mkTab 5 2) }] =
        [(1, [mkTab 1 1])]) :=
  ⟨by intro p hp; simp at hp,
   harpoon_partition_windowId_invariant.1 []
     [{ type := .add, windowId := 1, tab := some (mkTab 1 1) },
      { type := .add, windowId := 2, tab := some (mkTab 2 2) }] 1
     (by intro p hp; simp at hp),
   by decide,
   (harpoon_partition_windowId_invariant.2.1 [(1, [mkTab 1 1])]
     { type := .add, windowId := 1, tab := some (mkTab 5 2) } (mkTab 5 2)
     (Or.inl rfl) rfl (by decide)).1,
   (harpoon_partition_windowId_invariant.2.1 [(1, [mkTab 1 1])]
     { type := .add, windowId := 1, tab := some (mkTab 5 2) } (mkTab 5 2)
     (Or.inl rfl) rfl (by decide)).2⟩

/-! ## Record-update lookup lemmas (shared by C5 and C6) -/

theorem recLookup_cons {β : Type} (q : Nat × β) (rest : List (Nat × β)) (k : Nat) :
    recLookup (q :: rest) k =
      if (q.1 == k) = true then some q.2 else recLookup rest k := by
  by_cases h : (q.1 == k) = true <;> simp [recLookup, List.find?, h]

theorem recLookup_map_set {β : Type} (m : List (Nat × β)) (k : Nat) (v : β)
    (hany : m.any (fun p => p.1 == k) = true) :
    recLookup (m.map (fun p => if p.1 == k then (p.1, v) else p)) k = some v := by
  induction m with
  | nil => simp at hany
  | cons q rest ih =>
    rw [List.map_cons]
    by_cases hq : (q.1 == k) = true
    · rw [if_pos hq, recLookup_cons]
      simp [hq]
    · rw [if_neg hq, recLookup_cons, if_neg hq]
      exact ih (by simpa [hq] using hany)

theorem recLookup_map_set_ne {β : Type} (m : List (Nat × β)) (k k' : Nat) (v : β)
    (hne : k' ≠ k) :
    recLookup (m.map (fun p => if p.1 == k then (p.1, v) else p)) k' =
      recLookup m k' := by
  induction m with
  | nil => rfl
  | cons q rest ih =>
    rw [List.map_cons]
    by_cases hqk : (q.1 == k) = true
    · have hq' : (q.1 == k') = false := by
        have h1 : q.1 = k := by simpa using hqk
        simp [h1]
        exact fun h : k = k' => hne h.symm
      rw [if_pos hqk, recLookup_cons, recLookup_cons]
      simp only [hq', if_neg]
      simpa [hq'] using ih
    · rw [if_neg hqk, recLookup_cons, recLookup_cons]
      by_cases hq' : (q.1 == k') = true
      · simp [hq']
      · simp only [hq', if_neg]
        simpa [hq'] using ih

theorem recLookup_append_singleton_ne {β : Type} (m : List (Nat × β))
    (k k' : Nat) (v : β) (hne : k' ≠ k) :
    recLookup (m ++ [(k, v)]) k' = recLookup m k' := by
  induction m with
  | nil =>
    have hk : (k == k') = false := by
      simp
      exact fun h : k = k' => hne h.symm
    rw [List.nil_append, recLookup_cons]
    simp [hk, recLookup]
  | cons q rest ih =>
    rw [List.cons_append, recLookup_cons, recLookup_cons]
    by_cases hq' : (q.1 == k') = true
    · simp [hq']
    · simp only [hq', if_neg]
      simpa [hq'] using ih

theorem recLookup_append_none {β : Type} (m rest : List (Nat × β)) (k : Nat)
    (hnone : m.any (fun p => p.1 == k) = false) :
    recLookup (m ++ rest) k = recLookup rest k := by
  induction m with
  | nil => simp
  | cons q tail ih =>
    have hq : (q.1 == k) = false := by
      by_contra hc
      simp only [Bool.not_eq_false] at hc
      simp [hc] at hnone
    rw [List.cons_append, recLookup_cons]
    simp only [hq, if_neg]
    exact ih (by simpa [hq] using hnone)

theorem recLookup_recSet_self {β : Type} (m : List (Nat × β)) (k : Nat) (v : β) :
    recLookup (recSet m k v) k = some v := by
  unfold recSet
  by_cases hany : m.any (fun p => p.1 == k) = true
  · rw [if_pos hany]
    exact recLookup_map_set m k v hany
  · rw [if_neg hany]
    rw [recLookup_append_none m _ k (Bool.eq_false_iff.mpr hany)]
    rw [recLookup_cons]
    simp

theorem recLookup_recSet_ne {β : Type} (m : List (Nat × β)) (k k' : Nat) (v : β)
    (hne : k' ≠ k) : recLookup (recSet m k v) k' = recLookup m k' := by
  unfold recSet
  split
  · exact recLookup_map_set_ne m k k' v hne
  · exact recLookup_append_singleton_ne m k k' v hne

/-! ## C6 — harpoon size limit evicts oldest-by-id -/

theorem updateHarpoonTabs_add_fresh {st : HarpoonWindows} {tab : Tab}
    (hfresh : ∀ t ∈ getHarpoonTabsForWindow st tab.windowId, t.id ≠ tab.id)
    (hvalid : ∀ t ∈ getHarpoonTabsForWindow st tab.windowId, isValidTab t = true)
    (htab : isValidTab tab = true) :
    updateHarpoonTabs st { type := .add, windowId := tab.windowId, tab := some tab } =
      .ok (recSet st tab.windowId
        (getHarpoonTabsForWindow st tab.windowId ++ [tab])) := by
  have hfilter : (getHarpoonTabsForWindow st tab.windowId).filter
      (fun t => t.id != tab.id) = getHarpoonTabsForWindow st tab.windowId :=
    List.filter_eq_self.mpr (fun t ht => by simpa [bne] using hfresh t ht)
  have hall : ((getHarpoonTabsForWindow st tab.windowId ++ [tab]).all isValidTab) =
      true := by
    rw [List.all_eq_true]
    intro x hx
    rcases List.mem_append.mp hx with hx | hx
    · exact hvalid x hx
    · obtain rfl : x = tab := by simpa using hx
      exact htab
  simp [updateHarpoonTabs, applyHarpoonOperationToWindow, validateHarpoonTabs,
    hfilter, hall]

theorem updateHarpoonTabs_reorder_ok {st : HarpoonWindows} {w : Nat} {tabs : List Tab}
    (hw : ∀ t ∈ tabs, t.windowId = w)
    (hvalid : (tabs.all isValidTab) = true)
    (hne : tabs ≠ []) :
    updateHarpoonTabs st { type := .reorder, windowId := w, tabs := some tabs } =
      .ok (recSet st w tabs) := by
  have hany : (tabs.any fun t => t.windowId != w) = false := by
    rw [List.any_eq_false]
    intro t ht
    simpa [bne] using hw t ht
  have hlen : (tabs.length == 0) = false := by
    cases tabs with
    | nil => exact absurd rfl hne
    | cons a l => simp
  simp [updateHarpoonTabs, applyHarpoonOperationToWindow, validateHarpoonTabs,
    hany, hvalid, hlen]

theorem enforceMaxHarpoonTabs_over (maxTabs : Nat) {st : HarpoonWindows} {w : Nat}
    (hmax : 0 < maxTabs)
    (hover : maxTabs < (getHarpoonTabsForWindow st w).length)
    (hw : ∀ t ∈ getHarpoonTabsForWindow st w, t.windowId = w)
    (hvalid : ∀ t ∈ getHarpoonTabsForWindow st w, isValidTab t = true) :
    enforceMaxHarpoonTabs maxTabs st w =
      recSet st w (((getHarpoonTabsForWindow st w).insertionSort
        descById).take maxTabs) := by
  have hmemsort : ∀ t ∈ ((getHarpoonTabsForWindow st w).insertionSort
      descById).take maxTabs, t ∈ getHarpoonTabsForWindow st w := by
    intro t ht
    exact (List.perm_insertionSort descById _).mem_iff.mp
      ((List.take_sublist _ _).mem ht)
  have hwkeep : ∀ t ∈ ((getHarpoonTabsForWindow st w).insertionSort
      descById).take maxTabs, t.windowId = w :=
    fun t ht => hw t (hmemsort t ht)
  have hvkeep : ((((getHarpoonTabsForWindow st w).insertionSort
      descById).take maxTabs).all isValidTab) = true := by
    rw [List.all_eq_true]
    exact fun t ht => hvalid t (hmemsort t ht)
  have hlenkeep : (((getHarpoonTabsForWindow st w).insertionSort
      descById).take maxTabs).length = maxTabs := by
    rw [List.length_take, List.length_insertionSort]
    omega
  have hkeepne : (((getHarpoonTabsForWindow st w).insertionSort
      descById).take maxTabs) ≠ [] := by
    intro hnil
    rw [hnil] at hlenkeep
    simp at hlenkeep
    omega
  unfold enforceMaxHarpoonTabs
  rw [if_pos (by omega)]
  show (match updateHarpoonTabs st
      { type := .reorder, windowId := w,
        tabs := some (((getHarpoonTabsForWindow st w).insertionSort
          descById).take maxTabs) } with
    | .ok st' => st'
    | .error _ => st) = _
  rw [updateHarpoonTabs_reorder_ok hwkeep hvkeep hkeepne]

set_option maxRecDepth 8000

/-- C6: the default limit is 20; with limit `maxTabs`, an `addTabToHarpoon`
of a fresh tab into a window whose partition already holds at least
`maxTabs` entries (all ids distinct) succeeds and leaves the partition
with exactly `maxTabs` entries drawn from the previous entries plus the
new tab, every removed entry having a strictly smaller id than every kept
entry (the oldest-by-id are evicted); and, concretely, sequentially
adding the 21 distinct tabs with ids 1..21 to window 1 under the default
limit leaves exactly the 20 tabs with ids 21 down to 2 — the single
oldest (id 1) is evicted. -/
theorem addTabToHarpoon_limit_evicts_oldest (maxTabs : Nat) (st : HarpoonWindows)
    (tab : Tab)
    (hmax : 0 < maxTabs)
    (hinv : harpoonPartitionInv st)
    (hvalid : ∀ t ∈ getHarpoonTabsForWindow st tab.windowId, isValidTab t = true)
    (htab : isValidTab tab = true)
    (hfresh : ∀ t ∈ getHarpoonTabsForWindow st tab.windowId, t.id ≠ tab.id)
    (hnodup : ((getHarpoonTabsForWindow st tab.windowId).map Tab.id).Nodup)
    (hfull : maxTabs ≤ (getHarpoonTabsForWindow st tab.windowId).length) :
    maxHarpoonTabsDefault = 20 ∧
    (∃ st', addTabToHarpoon maxTabs st tab = .ok st' ∧
      (getHarpoonTabsForWindow st' tab.windowId).length = maxTabs ∧
      (∀ q ∈ getHarpoonTabsForWindow st' tab.windowId,
        q ∈ getHarpoonTabsForWindow st tab.windowId ++ [tab]) ∧
      (∀ x ∈ getHarpoonTabsForWindow st tab.windowId ++ [tab],
        x ∉ getHarpoonTabsForWindow st' tab.windowId →
        ∀ q ∈ getHarpoonTabsForWindow st' tab.windowId, x.id < q.id)) ∧
    (getHarpoonTabsForWindow (addTabsSequentially 20 [] tabs21) 1).map Tab.id =
      (List.range 20).map (fun i => 21 - i) ∧
    mkTab 1 1 ∉ getHarpoonTabsForWindow (addTabsSequentially 20 [] tabs21) 1 := by
  refine ⟨rfl, ?_, by decide, by decide⟩
  have hanyfresh : ((getHarpoonTabsForWindow st tab.windowId).any
      (fun t => t.id == tab.id)) = false := by
    rw [List.any_eq_false]
    intro t ht
    simpa using hfresh t ht
  have hstep1 := updateHarpoonTabs_add_fresh hfresh hvalid htab
  have hadd : addTabToHarpoon maxTabs st tab =
      .ok (enforceMaxHarpoonTabs maxTabs
        (recSet st tab.windowId (getHarpoonTabsForWindow st tab.windowId ++ [tab]))
        tab.windowId) := by
    unfold addTabToHarpoon
    rw [hanyfresh]
    simp only [Bool.false_eq_true, if_false, hstep1]
  have hpart1 : getHarpoonTabsForWindow
      (recSet st tab.windowId (getHarpoonTabsForWindow st tab.windowId ++ [tab]))
      tab.windowId = getHarpoonTabsForWindow st tab.windowId ++ [tab] := by
    unfold getHarpoonTabsForWindow
    rw [recLookup_recSet_self]
    rfl
  have hw1 : ∀ t ∈ getHarpoonTabsForWindow st tab.windowId ++ [tab],
      t.windowId = tab.windowId := by
    intro t ht
    rcases List.mem_append.mp ht with h | h
    · exact mem_getHarpoonTabsForWindow_windowId hinv t h
    · obtain rfl : t = tab := by simpa using h
      rfl
  have hv1 : ∀ t ∈ getHarpoonTabsForWindow st tab.windowId ++ [tab],
      isValidTab t = true := by
    intro t ht
    rcases List.mem_append.mp ht with h | h
    · exact hvalid t h
    · obtain rfl : t = tab := by simpa using h
      exact htab
  have henf := enforceMaxHarpoonTabs_over maxTabs hmax
    (by rw [hpart1, List.length_append]; simpa using Nat.lt_succ_of_le hfull)
    (by rw [hpart1]; exact hw1) (by rw [hpart1]; exact hv1)
  rw [hpart1] at henf
  refine ⟨_, by rw [hadd, henf], ?_⟩
  have hpart2 : getHarpoonTabsForWindow
      (recSet (recSet st tab.windowId
          (getHarpoonTabsForWindow st tab.windowId ++ [tab])) tab.windowId
        (((getHarpoonTabsForWindow st tab.windowId ++ [tab]).insertionSort
          descById).take maxTabs)) tab.windowId =
      ((getHarpoonTabsForWindow st tab.windowId ++ [tab]).insertionSort
        descById).take maxTabs := by
    unfold getHarpoonTabsForWindow
    rw [recLookup_recSet_self]
    rfl
  rw [hpart2]
  have hsorted : List.Pairwise descById
      ((getHarpoonTabsForWindow st tab.windowId ++ [tab]).insertionSort descById) :=
    List.sorted_insertionSort descById
      (getHarpoonTabsForWindow st tab.windowId ++ [tab])
  have hperm : List.Perm
      ((getHarpoonTabsForWindow st tab.windowId ++ [tab]).insertionSort descById)
      (getHarpoonTabsForWindow st tab.windowId ++ [tab]) :=
    List.perm_insertionSort descById _
  have hlen : (((getHarpoonTabsForWindow st tab.windowId ++ [tab]).insertionSort
      descById).take maxTabs).length = maxTabs := by
    rw [List.length_take, List.length_insertionSort, List.length_append]
    simp only [List.length_cons, List.length_nil]
    omega
  refine ⟨hlen, ?_, ?_⟩
  · intro q hq
    exact hperm.mem_iff.mp ((List.take_sublist _ _).mem hq)
  · intro x hx hnotkeep q hq
    have hxsorted : x ∈ (getHarpoonTabsForWindow st tab.windowId ++
        [tab]).insertionSort descById := hperm.mem_iff.mpr hx
    have hdecomp := List.take_append_drop maxTabs
      ((getHarpoonTabsForWindow st tab.windowId ++ [tab]).insertionSort descById)
    have hxdrop : x ∈ ((getHarpoonTabsForWindow st tab.windowId ++
        [tab]).insertionSort descById).drop maxTabs := by
      rcases List.mem_append.mp (by rw [hdecomp]; exact hxsorted) with h | h
      · exact absurd h hnotkeep
      · exact h
    have hpairs : List.Pairwise descById
        ((((getHarpoonTabsForWindow st tab.windowId ++ [tab]).insertionSort
          descById).take maxTabs) ++
         (((getHarpoonTabsForWindow st tab.windowId ++ [tab]).insertionSort
          descById).drop maxTabs)) := by
      rw [hdecomp]
      exact hsorted
    have hle : x.id ≤ q.id := (List.pairwise_append.mp hpairs).2.2 q hq x hxdrop
    have hnodup1 : ((getHarpoonTabsForWindow st tab.windowId ++ [tab]).map
        Tab.id).Nodup := by
      rw [List.map_append]
      refine List.Nodup.append hnodup (by simp) ?_
      intro a ha hb
      obtain rfl : a = tab.id := by simpa using hb
      obtain ⟨t, ht, hta⟩ := List.mem_map.mp ha
      exact hfresh t ht hta
    have hnodupsort : (((getHarpoonTabsForWindow st tab.windowId ++
        [tab]).insertionSort descById).map Tab.id).Nodup :=
      ((hperm.map Tab.id).nodup_iff).mpr hnodup1
    have hnodupsplit : ((((getHarpoonTabsForWindow st tab.windowId ++
        [tab]).insertionSort descById).take maxTabs).map Tab.id ++
        (((getHarpoonTabsForWindow st tab.windowId ++
        [tab]).insertionSort descById).drop maxTabs).map Tab.id).Nodup := by
      rw [← List.map_append, hdecomp]
      exact hnodupsort
    have hne : x.id ≠ q.id := by
      intro heq
      exact (List.disjoint_of_nodup_append hnodupsplit)
        (List.mem_map.mpr ⟨q, hq, rfl⟩)
        (by rw [← heq]; exact List.mem_map.mpr ⟨x, hxdrop, rfl⟩)
    omega

/-- C6 witness: the limit theorem applied at a window-1 partition holding
the 20 tabs with ids 1..20 and the fresh tab with id 21. -/
theorem addTabToHarpoon_limit_evicts_oldest_witness :
    (0 < 20 ∧ harpoonPartitionInv state20 ∧
      20 ≤ (getHarpoonTabsForWindow state20 (mkTab 21 1).windowId).length) ∧
    (∃ st', addTabToHarpoon 20 state20 (mkTab 21 1) = .ok st' ∧
      (getHarpoonTabsForWindow st' (mkTab 21 1).windowId).length = 20 ∧
      (∀ q ∈ getHarpoonTabsForWindow st' (mkTab 21 1).windowId,
        q ∈ getHarpoonTabsForWindow state20 (mkTab 21 1).windowId ++ [mkTab 21 1]) ∧
      (∀ x ∈ getHarpoonTabsForWindow state20 (mkTab 21 1).windowId ++ [mkTab 21 1],
        x ∉ getHarpoonTabsForWindow st' (mkTab 21 1).windowId →
        ∀ q ∈ getHarpoonTabsForWindow st' (mkTab 21 1).windowId, x.id < q.id)) :=
  ⟨⟨by decide, by unfold harpoonPartitionInv; decide, by decide⟩,
   (addTabToHarpoon_limit_evicts_oldest 20 state20 (mkTab 21 1) (by decide)
     (by unfold harpoonPartitionInv; decide) (by decide) (by decide) (by decide)
     (by decide) (by decide)).2.1⟩

/-! ## C5 — legacy harpoon migration at startup -/

theorem recLookup_eq_none_iff {β : Type} (m : List (Nat × β)) (k : Nat) :
    recLookup m k = none ↔ k ∉ m.map Prod.fst := by
  unfold recLookup
  constructor
  · intro h hk
    obtain ⟨p, hp, hpk⟩ := List.mem_map.mp hk
    cases hf : m.find? (fun p => p.1 == k) with
    | some q => rw [hf] at h; simp at h
    | none =>
      have := List.find?_eq_none.mp hf p hp
      simp [hpk] at this
  · intro hk
    have hf : m.find? (fun p => p.1 == k) = none := by
      rw [List.find?_eq_none]
      intro p hp hpk
      exact hk (List.mem_map.mpr ⟨p, hp, by simpa using hpk⟩)
    simp [hf]

theorem any_key_eq_false_of_recLookup_none {β : Type} {m : List (Nat × β)} {k : Nat}
    (h : recLookup m k = none) : m.any (fun p => p.1 == k) = false := by
  rw [List.any_eq_false]
  intro p hp hpk
  exact (recLookup_eq_none_iff m k).mp h
    (List.mem_map.mpr ⟨p, hp, by simpa using hpk⟩)

theorem any_key_eq_true_of_recLookup_some {β : Type} {m : List (Nat × β)} {k : Nat}
    {v : β} (h : recLookup m k = some v) : m.any (fun p => p.1 == k) = true := by
  unfold recLookup at h
  cases hf : m.find? (fun p => p.1 == k) with
  | none => rw [hf] at h; simp at h
  | some p =>
    have hpk := List.find?_some hf
    exact List.any_eq_true.mpr ⟨p, List.mem_of_find?_eq_some hf, hpk⟩

theorem keys_recSet_of_mem {β : Type} (m : List (Nat × β)) (k : Nat) (v : β)
    (hany : m.any (fun p => p.1 == k) = true) :
    (recSet m k v).map Prod.fst = m.map Prod.fst := by
  unfold recSet
  rw [if_pos hany, List.map_map]
  apply List.map_congr_left
  intro p _
  by_cases h : (p.1 == k) = true
  · have h' : p.1 = k := by simpa using h
    simp [h']
  · have h' : ¬ p.1 = k := by simpa using h
    simp [h']

theorem recLookup_groupStep (acc : HarpoonWindows) (t : Tab) (k : Nat) :
    recLookup (groupStep acc t) k =
      if k = t.windowId
      then some ((recLookup acc t.windowId).getD [] ++ [t])
      else recLookup acc k := by
  unfold groupStep
  cases hl : recLookup acc t.windowId with
  | none =>
    by_cases hk : k = t.windowId
    · subst hk
      rw [if_pos rfl, recLookup_append_none _ _ _
        (any_key_eq_false_of_recLookup_none hl), recLookup_cons]
      simp [hl]
    · rw [if_neg hk, recLookup_append_singleton_ne _ _ _ _ hk]
  | some existing =>
    by_cases hk : k = t.windowId
    · subst hk
      rw [if_pos rfl, recLookup_recSet_self]
      rfl
    · rw [if_neg hk, recLookup_recSet_ne _ _ _ _ hk]

theorem keys_groupStep (acc : HarpoonWindows) (t : Tab) :
    (groupStep acc t).map Prod.fst =
      if recLookup acc t.windowId = none
      then acc.map Prod.fst ++ [t.windowId]
      else acc.map Prod.fst := by
  unfold groupStep
  cases hl : recLookup acc t.windowId with
  | none => simp
  | some existing =>
    rw [if_neg (by simp)]
    exact keys_recSet_of_mem acc t.windowId _
      (any_key_eq_true_of_recLookup_some hl)

theorem groupTabsByWindow_fold (tabs : List Tab) :
    ∀ acc : HarpoonWindows, (acc.map Prod.fst).Nodup →
      ((tabs.foldl groupStep acc).map Prod.fst).Nodup ∧
      (∀ k, k ∈ (tabs.foldl groupStep acc).map Prod.fst ↔
        k ∈ acc.map Prod.fst ∨ ∃ t ∈ tabs, t.windowId = k) ∧
      (∀ k, (recLookup (tabs.foldl groupStep acc) k).getD [] =
        (recLookup acc k).getD [] ++ tabs.filter (fun t => t.windowId == k)) := by
  induction tabs with
  | nil =>
    intro acc hnodup
    refine ⟨hnodup, fun k => by simp, fun k => by simp⟩
  | cons t rest ih =>
    intro acc hnodup
    have hfold : (t :: rest).foldl groupStep acc = rest.foldl groupStep (groupStep acc t) :=
      rfl
    have hkeysstep := keys_groupStep acc t
    have hnodup' : ((groupStep acc t).map Prod.fst).Nodup := by
      rw [hkeysstep]
      cases hl : recLookup acc t.windowId with
      | none =>
        rw [if_pos rfl]
        refine List.Nodup.append hnodup (by simp) ?_
        intro a ha hb
        obtain rfl : a = t.windowId := by simpa using hb
        exact (recLookup_eq_none_iff acc t.windowId).mp hl ha
      | some existing =>
        rw [if_neg (by simp)]
        exact hnodup
    obtain ⟨ihnodup, ihmem, ihcontent⟩ := ih (groupStep acc t) hnodup'
    rw [hfold]
    refine ⟨ihnodup, ?_, ?_⟩
    · intro k
      rw [ihmem k, hkeysstep]
      cases hl : recLookup acc t.windowId with
      | none =>
        rw [if_pos rfl]
        constructor
        · rintro (hk | hk)
          · rcases List.mem_append.mp hk with hk | hk
            · exact Or.inl hk
            · obtain rfl : k = t.windowId := by simpa using hk
              exact Or.inr ⟨t, by simp⟩
          · obtain ⟨u, hu, huk⟩ := hk
            exact Or.inr ⟨u, by simp [hu], huk⟩
        · rintro (hk | ⟨u, hu, huk⟩)
          · exact Or.inl (List.mem_append.mpr (Or.inl hk))
          · rcases List.mem_cons.mp hu with rfl | hu
            · exact Or.inl (List.mem_append.mpr (Or.inr (by simp [huk])))
            · exact Or.inr ⟨u, hu, huk⟩
      | some existing =>
        rw [if_neg (by simp)]
        constructor
        · rintro (hk | ⟨u, hu, huk⟩)
          · exact Or.inl hk
          · exact Or.inr ⟨u, by simp [hu], huk⟩
        · rintro (hk | ⟨u, hu, huk⟩)
          · exact Or.inl hk
          · rcases List.mem_cons.mp hu with rfl | hu
            · subst huk
              refine Or.inl ?_
              have : recLookup acc u.windowId ≠ none := by simp [hl]
              by_contra hnk
              exact this ((recLookup_eq_none_iff acc u.windowId).mpr hnk)
            · exact Or.inr ⟨u, hu, huk⟩
    · intro k
      rw [ihcontent k, recLookup_groupStep]
      by_cases hk : k = t.windowId
      · subst hk
        rw [if_pos rfl]
        simp [List.filter_cons, List.append_assoc]
      · rw [if_neg hk]
        have hft : (t.windowId == k) = false := by
          simp
          exact fun h => hk h.symm
        simp [List.filter_cons, hft]

/-- C5: when `initialize()` finds a non-empty legacy flat harpoon list and
no partitioned data, it groups the legacy tabs by windowId: the
partitioned store then holds exactly K partitions — K the number of
distinct legacy windowIds — whose keys are exactly the legacy windowIds,
each partition holding exactly the legacy tabs of that window in their
original relative order; the partitioned form is written to storage and
the legacy key is cleared.  When partitioned data already exists or the
legacy list is empty, no migration occurs: both slices are adopted as
read and storage is left untouched. -/
theorem initialize_migrates_legacy_harpoon (stg : StorageState) (st : ManagerState)
    (hleg : stg.harpoonHistory ≠ []) (hpw : stg.harpoonWindows = [])
    (hini : st.isInitialized = false) :
    ((initializeStateManager stg st).1.harpoonWindowsState.map Prod.fst).Nodup ∧
    (initializeStateManager stg st).1.harpoonWindowsState.length =
      ((stg.harpoonHistory.map Tab.windowId).dedup).length ∧
    (∀ w, w ∈ (initializeStateManager stg st).1.harpoonWindowsState.map Prod.fst ↔
      w ∈ stg.harpoonHistory.map Tab.windowId) ∧
    (∀ w, getHarpoonTabsForWindow
        (initializeStateManager stg st).1.harpoonWindowsState w =
      stg.harpoonHistory.filter (fun t => t.windowId == w)) ∧
    (initializeStateManager stg st).2.harpoonHistory = [] ∧
    (initializeStateManager stg st).2.harpoonWindows =
      (initializeStateManager stg st).1.harpoonWindowsState ∧
    (initializeStateManager stg st).1.harpoonTabsState = [] ∧
    (∀ (stg' : StorageState) (st' : ManagerState), st'.isInitialized = false →
      (stg'.harpoonWindows ≠ [] ∨ stg'.harpoonHistory = []) →
      (initializeStateManager stg' st').1.harpoonWindowsState =
        stg'.harpoonWindows ∧
      (initializeStateManager stg' st').1.harpoonTabsState =
        stg'.harpoonHistory ∧
      (initializeStateManager stg' st').2 = stg') := by
  have hcond : (decide (stg.harpoonHistory.length > 0) &&
      (stg.harpoonWindows.length == 0)) = true := by
    have h1 : stg.harpoonHistory.length > 0 := List.length_pos.mpr hleg
    simp [h1, hpw]
  have hws : (initializeStateManager stg st).1.harpoonWindowsState =
      groupTabsByWindow stg.harpoonHistory := by
    simp [initializeStateManager, hini, hcond]
  have hts : (initializeStateManager stg st).1.harpoonTabsState = [] := by
    simp [initializeStateManager, hini, hcond]
  have hsh : (initializeStateManager stg st).2.harpoonHistory = [] := by
    simp [initializeStateManager, hini, hcond]
  have hsw : (initializeStateManager stg st).2.harpoonWindows =
      groupTabsByWindow stg.harpoonHistory := by
    simp [initializeStateManager, hini, hcond]
  obtain ⟨hnodup, hmem, hcontent⟩ :=
    groupTabsByWindow_fold stg.harpoonHistory [] (by simp)
  have hmem' : ∀ k, k ∈ (groupTabsByWindow stg.harpoonHistory).map Prod.fst ↔
      k ∈ stg.harpoonHistory.map Tab.windowId := by
    intro k
    rw [show groupTabsByWindow stg.harpoonHistory =
      stg.harpoonHistory.foldl groupStep [] from rfl, hmem k]
    simp [List.mem_map]
  refine ⟨?_, ?_, ?_, ?_, ?_, ?_, ?_, ?_⟩
  · rw [hws]
    exact hnodup
  · rw [hws]
    have hgg : groupTabsByWindow stg.harpoonHistory =
        stg.harpoonHistory.foldl groupStep [] := rfl
    have hnd : ((stg.harpoonHistory.map Tab.windowId).dedup).Nodup :=
      List.nodup_dedup _
    have hseteq : ((stg.harpoonHistory.foldl groupStep []).map Prod.fst).toFinset =
        ((stg.harpoonHistory.map Tab.windowId).dedup).toFinset := by
      apply Finset.ext
      intro a
      simp only [List.mem_toFinset, List.mem_dedup]
      rw [← hgg]
      exact hmem' a
    have h1 := List.toFinset_card_of_nodup hnodup
    have h2 := List.toFinset_card_of_nodup hnd
    have hlenkeys : (stg.harpoonHistory.foldl groupStep []).length =
        ((stg.harpoonHistory.foldl groupStep []).map Prod.fst).length :=
      (List.length_map _ _).symm
    rw [hgg, hlenkeys, ← h1, hseteq, h2]
  · intro w
    rw [hws]
    exact hmem' w
  · intro w
    rw [hws]
    unfold getHarpoonTabsForWindow
    rw [show groupTabsByWindow stg.harpoonHistory =
      stg.harpoonHistory.foldl groupStep [] from rfl]
    rw [hcontent w]
    simp [recLookup]
  · exact hsh
  · rw [hsw, hws]
  · exact hts
  · intro stg' st' hini' hnomig
    have hcond' : (decide (stg'.harpoonHistory.length > 0) &&
        (stg'.harpoonWindows.length == 0)) = false := by
      rcases hnomig with hw | hl
      · have : (stg'.harpoonWindows.length == 0) = false := by
          cases hwv : stg'.harpoonWindows with
          | nil => exact absurd hwv hw
          | cons a l => simp
        simp [this]
      · simp [hl]
    refine ⟨?_, ?_, ?_⟩ <;> simp [initializeStateManager, hini', hcond']

/-- C5 witness: the migration theorem applied to storage holding three
legacy tabs spanning two windows and no partitioned data. -/
theorem initialize_migrates_legacy_harpoon_witness :
    (legacyStorage.harpoonHistory ≠ [] ∧ legacyStorage.harpoonWindows = [] ∧
      freshManager.isInitialized = false) ∧
    (initializeStateManager legacyStorage freshManager).1.harpoonWindowsState.length =
      ((legacyStorage.harpoonHistory.map Tab.windowId).dedup).length ∧
    (∀ w, getHarpoonTabsForWindow
        (initializeStateManager legacyStorage freshManager).1.harpoonWindowsState w =
      legacyStorage.harpoonHistory.filter (fun t => t.windowId == w)) ∧
    (initializeStateManager legacyStorage freshManager).2.harpoonHistory = [] :=
  ⟨⟨by decide, rfl, rfl⟩,
   (initialize_migrates_legacy_harpoon legacyStorage freshManager (by decide)
     rfl rfl).2.1,
   (initialize_migrates_legacy_harpoon legacyStorage freshManager (by decide)
     rfl rfl).2.2.2.1,
   (initialize_migrates_legacy_harpoon legacyStorage freshManager (by decide)
     rfl rfl).2.2.2.2.1⟩

end TB
